import Mathlib

/-!
Verification of the Credential & Trust Boundary subsystem of the
cambridge webhook-gateway repository, as a shallow embedding in Lean 4.

The Python sources are embedded as executable Lean definitions:
* `FrameioWebhookService.process_webhook` (app/core/services.py) and the
  `PublisherError` handler (app/main.py) as `processWebhook` / `webhookResponse`;
* `verify_frameio_signature` (main.py) together with full executable
  SHA-256 / HMAC-SHA256;
* the Fernet token layer used by `encrypt_token` / `decrypt_token`
  (app/infrastructure/encryption.py), with a full executable AES-128-CBC,
  PKCS#7, HMAC and url-safe base64;
* the `OAuthToken` expiry/refresh logic (app/users/models.py,
  app/integrations/adobe/service.py);
* the user/token repositories (app/users/repository.py,
  app/infrastructure/firestore_repository.py);
* the webhook endpoints of main.py and app/api/frameio.py, including a
  faithful JSON acceptance model for `json.loads`.

Python `str` values are modelled as lists of Unicode code points
(`List Nat`), `bytes` values as lists of byte values (`List Nat`, each < 256),
and machine integers as `Nat`/`Int` with explicit reductions mod 2^w.
-/

set_option maxRecDepth 100000
set_option maxHeartbeats 4000000

namespace Cambridge

/-! ## Python strings as code-point lists -/

/-- Code points of a Lean string literal; used to write Python `str`
values (modelled as `List Nat`) concretely. -/
def pystr (s : String) : List Nat :=
  s.data.map (fun c => c.toNat)

/-! ## C1: webhook service publishing contract

From app/core/services.py (`FrameioWebhookService.process_webhook`,
lines 118-129) and app/main.py (`publisher_error_handler`, lines 110-125).
-/

/-- Outcome of `self.event_publisher.publish(event)`: the call either raises
an exception or returns an `Optional[str]` message id. -/
inductive PublishOutcome where
  | raises (msg : List Nat)
  | returns (messageId : Option (List Nat))
deriving DecidableEq, Repr

/-- Domain exception `PublisherError` (app/core/exceptions.py). -/
structure PublisherError where
  message : List Nat
deriving DecidableEq, Repr

/-- `FrameioWebhookService.process_webhook`, publishing step
(app/core/services.py lines 116-129): wrap a raising publish into
`PublisherError`, and enforce the business rule that a falsy
(`None` or empty) message id is also a `PublisherError`. -/
def processWebhook (publish : PublishOutcome) : Except PublisherError (List Nat) :=
  match publish with
  | .raises e => .error ⟨pystr "Failed to publish event: " ++ e⟩
  | .returns none => .error ⟨pystr "Publisher returned no message ID"⟩
  | .returns (some messageId) =>
      -- `if not message_id:` an empty string is falsy in Python
      if messageId = [] then .error ⟨pystr "Publisher returned no message ID"⟩
      else .ok messageId

/-- `OAuthToken` (app/users/models.py lines 14-37). String fields are
code-point lists; `expires_at` is a Unix epoch second count. -/
structure OAuthToken where
  provider : List Nat
  access_token : List Nat
  refresh_token : Option (List Nat) := none
  expires_at : Option Int := none
  token_type : List Nat := pystr "Bearer"
  scope : Option (List Nat) := none
  connected_at : Int
deriving DecidableEq, Repr

/-- Raw token dict from the provider's token endpoint (authlib shape). -/
structure RawTokenResponse where
  access_token : List Nat
  refresh_token : Option (List Nat) := none
  expires_at : Option Int := none
  token_type : Option (List Nat) := none
  scope : Option (List Nat) := none
deriving DecidableEq, Repr

/-- `OAuthToken.from_oauth_response` (app/users/models.py lines 39-60):
normalize an authlib token dict; `token_type` defaults to `"Bearer"`,
`connected_at` defaults to the current time. -/
def OAuthToken.from_oauth_response (provider : List Nat) (token_data : RawTokenResponse)
    (now : Int) : OAuthToken :=
  { provider := provider
    access_token := token_data.access_token
    refresh_token := token_data.refresh_token
    expires_at := token_data.expires_at
    token_type := (token_data.token_type).getD (pystr "Bearer")
    scope := token_data.scope
    connected_at := now }

/-- `OAuthToken.is_expired` (app/users/models.py lines 77-81):
`expires_at is None` means never expires; otherwise the token is expired
once `datetime.now(UTC).timestamp() >= self.expires_at`. -/
def OAuthToken.is_expired (t : OAuthToken) (now : Int) : Bool :=
  match t.expires_at with
  | none => false
  | some e => now ≥ e

/-- `TokenExpiredError` (app/integrations/adobe/exceptions.py). -/
structure TokenExpiredError where
  message : List Nat
deriving DecidableEq, Repr

/-- Outcome of the provider's token-refresh HTTP POST: status code and
parsed JSON body. -/
structure RefreshHttpOutcome where
  status_code : Nat
  body : RawTokenResponse
deriving DecidableEq, Repr

/-- `FrameioService._refresh_token_if_needed` (app/integrations/adobe/service.py
lines 61-103), with the refresh endpoint's behaviour passed in as `http`.
Returns the (possibly replaced) token together with the number of refresh
HTTP calls actually made. -/
def refreshTokenIfNeeded (tok : OAuthToken) (now : Int) (can_refresh : Bool)
    (http : RefreshHttpOutcome) : Except TokenExpiredError OAuthToken × Nat :=
  if ¬ tok.is_expired now then (.ok tok, 0)
  else
    -- `if not self._token.refresh_token:` — `None` and `""` are falsy
    if tok.refresh_token = none ∨ tok.refresh_token = some [] then
      (.error ⟨pystr "Token expired and no refresh token available"⟩, 0)
    else if ¬ can_refresh then
      (.error ⟨pystr "Token expired and client credentials not configured for refresh"⟩, 0)
    else if http.status_code ≠ 200 then
      (.error ⟨pystr "Token refresh failed"⟩, 1)
    else
      (.ok (OAuthToken.from_oauth_response (pystr "adobe") http.body now), 1)

/-! ## User/token repositories

From app/users/repository.py (`InMemoryUserRepository.save_token`,
lines 167-183) and app/infrastructure/firestore_repository.py
(`FirestoreUserRepository.save_token`, lines 133-184).
-/

/-- `User` domain model (app/users/models.py lines 84-108); the token map is
an association list keyed by provider. -/
structure User where
  uid : List Nat
  email : List Nat
  tokens : List (List Nat × OAuthToken) := []
  created_at : Int
  updated_at : Int
deriving DecidableEq, Repr

/-- Association-list lookup (Python `dict.get`). -/
def alistGet {α : Type} (k : List Nat) (l : List (List Nat × α)) : Option α :=
  match l.find? (fun p => p.1 = k) with
  | some p => some p.2
  | none => none

/-- Association-list insert/replace (Python `d[k] = v`). -/
def alistPut {α : Type} (k : List Nat) (v : α) (l : List (List Nat × α)) :
    List (List Nat × α) :=
  match l with
  | [] => [(k, v)]
  | (k', v') :: rest =>
      if k' = k then (k, v) :: rest else (k', v') :: alistPut k v rest

/-- In-memory repository state: `self._users : dict[str, User]`. -/
def InMemoryState := List (List Nat × User)

/-- `InMemoryUserRepository.save_token` (app/users/repository.py
lines 167-183): raises `ValueError` when the user does not exist; otherwise
normalizes the token, stores it under the provider key, and bumps
`updated_at`. The state after the call is returned alongside the result. -/
def inMemorySaveToken (st : InMemoryState) (uid provider : List Nat)
    (token_data : RawTokenResponse) (now : Int) :
    InMemoryState × Except (List Nat) OAuthToken :=
  match alistGet uid st with
  | none => (st, .error (pystr "User not found - cannot save token"))
  | some user =>
      let token := OAuthToken.from_oauth_response provider token_data now
      let user' := { user with tokens := alistPut provider token user.tokens
                               updated_at := now }
      (alistPut uid user' st, .ok token)

/-- A token document as persisted by Firestore: `access_token` and
`refresh_token` hold ciphertext. -/
structure TokenDoc where
  provider : List Nat
  access_token : Option (List Nat)
  refresh_token : Option (List Nat)
  expires_at : Option Int
  token_type : List Nat
  scope : Option (List Nat)
  connected_at : Int
deriving DecidableEq, Repr

/-- A user document as persisted by Firestore. -/
structure UserDoc where
  uid : List Nat
  email : List Nat
  created_at : Int
  updated_at : Int
deriving DecidableEq, Repr

/-- Firestore contents touched by the repository: the `users` collection and
the per-user `tokens` subcollections (keyed by `(uid, provider)`). -/
structure FirestoreDB where
  users : List (List Nat × UserDoc)
  tokenDocs : List (List Nat × List (List Nat × TokenDoc))
deriving DecidableEq, Repr

/-- `FirestoreUserRepository.save_token` (app/infrastructure/
firestore_repository.py lines 133-184): raises `ValueError` before any write
when the user document does not exist; otherwise encrypts the secret fields
with the process-wide cipher `enc` (`encrypt_token_optional`) and writes the
token document and the user's `updated_at`. -/
def firestoreSaveToken (db : FirestoreDB) (uid provider : List Nat)
    (token_data : RawTokenResponse) (now : Int) (enc : List Nat → List Nat) :
    FirestoreDB × Except (List Nat) OAuthToken :=
  match alistGet uid db.users with
  | none => (db, .error (pystr "User not found - cannot save token"))
  | some userDoc =>
      let token := OAuthToken.from_oauth_response provider token_data now
      let doc : TokenDoc :=
        { provider := token.provider
          access_token := some (enc token.access_token)
          refresh_token := token.refresh_token.map enc
          expires_at := token.expires_at
          token_type := token.token_type
          scope := token.scope
          connected_at := token.connected_at }
      let sub := (alistGet uid db.tokenDocs).getD []
      let db' : FirestoreDB :=
        { users := alistPut uid { userDoc with updated_at := now } db.users
          tokenDocs := alistPut uid (alistPut provider doc sub) db.tokenDocs }
      (db', .ok token)

/-! ## SHA-256 and HMAC-SHA256

Executable model of `hashlib.sha256` / `hmac.new(..., hashlib.sha256)`
as used by `verify_frameio_signature` (main.py lines 72-76) and by the
Fernet token layer. Bytes are `Nat` values < 256; 32-bit words are `Nat`
values reduced mod 2^32.
-/

/-- Reduce to a 32-bit word. -/
def w32 (n : Nat) : Nat := n % 4294967296

/-- 32-bit right rotation (input assumed < 2^32). -/
def rotr (n x : Nat) : Nat := w32 ((x >>> n) ||| (x <<< (32 - n)))

/-- SHA-256 small sigma 0. -/
def ssig0 (x : Nat) : Nat := (rotr 7 x) ^^^ (rotr 18 x) ^^^ (x >>> 3)

/-- SHA-256 small sigma 1. -/
def ssig1 (x : Nat) : Nat := (rotr 17 x) ^^^ (rotr 19 x) ^^^ (x >>> 10)

/-- SHA-256 big sigma 0. -/
def bsig0 (x : Nat) : Nat := (rotr 2 x) ^^^ (rotr 13 x) ^^^ (rotr 22 x)

/-- SHA-256 big sigma 1. -/
def bsig1 (x : Nat) : Nat := (rotr 6 x) ^^^ (rotr 11 x) ^^^ (rotr 25 x)

/-- SHA-256 round constants. -/
def sha256K : List Nat :=
  [1116352408, 1899447441, 3049323471, 3921009573, 961987163,
   1508970993, 2453635748, 2870763221, 3624381080, 310598401,
   607225278, 1426881987, 1925078388, 2162078206, 2614888103,
   3248222580, 3835390401, 4022224774, 264347078, 604807628,
   770255983, 1249150122, 1555081692, 1996064986, 2554220882,
   2821834349, 2952996808, 3210313671, 3336571891, 3584528711,
   113926993, 338241895, 666307205, 773529912, 1294757372,
   1396182291, 1695183700, 1986661051, 2177026350, 2456956037,
   2730485921, 2820302411, 3259730800, 3345764771, 3516065817,
   3600352804, 4094571909, 275423344, 430227734, 506948616,
   659060556, 883997877, 958139571, 1322822218, 1537002063,
   1747873779, 1955562222, 2024104815, 2227730452, 2361852424,
   2428436474, 2756734187, 3204031479, 3329325298]

/-- SHA-256 initial hash value. -/
def sha256H0 : List Nat :=
  [1779033703, 3144134277, 1013904242, 2773480762,
   1359893119, 2600822924, 528734635, 1541459225]

/-- Big-endian 32-bit words from bytes. -/
def bytesToWords : List Nat → List Nat
  | b0 :: b1 :: b2 :: b3 :: rest =>
      (b0 * 16777216 + b1 * 65536 + b2 * 256 + b3) :: bytesToWords rest
  | _ => []

/-- Big-endian bytes of a 32-bit word. -/
def wordToBytes (wd : Nat) : List Nat :=
  [wd / 16777216 % 256, wd / 65536 % 256, wd / 256 % 256, wd % 256]

/-- Extend the 16 message-schedule words to 64 (iterated `n` more times). -/
def extendSchedule : Nat → List Nat → List Nat
  | 0, acc => acc
  | n + 1, acc =>
      let i := acc.length
      let wd := w32 (ssig1 (acc.getD (i - 2) 0) + acc.getD (i - 7) 0 +
        ssig0 (acc.getD (i - 15) 0) + acc.getD (i - 16) 0)
      extendSchedule n (acc ++ [wd])

/-- One SHA-256 compression round: `kw` is the (already reduced) sum of the
round constant and the schedule word. -/
def sha256Round (st : List Nat) (kw : Nat) : List Nat :=
  match st with
  | [a, b, c, d, e, f, g, h] =>
      let ch := (e &&& f) ^^^ ((4294967295 - e) &&& g)
      let maj := (a &&& b) ^^^ (a &&& c) ^^^ (b &&& c)
      let t1 := w32 (h + bsig1 e + ch + kw)
      let t2 := w32 (bsig0 a + maj)
      [w32 (t1 + t2), a, b, c, w32 (d + t1), e, f, g]
  | _ => st

/-- Compress one 64-byte chunk into the running state. -/
def sha256Chunk (st : List Nat) (chunk : List Nat) : List Nat :=
  let ws := extendSchedule 48 (bytesToWords chunk)
  let out := (sha256K.zip ws).foldl (fun s kw => sha256Round s (w32 (kw.1 + kw.2))) st
  List.zipWith (fun a b => w32 (a + b)) st out

/-- Split into 64-byte chunks (fuel-based so that it reduces by `decide`). -/
def chunks64Aux : Nat → List Nat → List (List Nat)
  | 0, _ => []
  | _, [] => []
  | fuel + 1, b :: rest => ((b :: rest).take 64) :: chunks64Aux fuel ((b :: rest).drop 64)

/-- Split into 64-byte chunks. -/
def chunks64 (l : List Nat) : List (List Nat) := chunks64Aux l.length l

/-- SHA-256 padding: `0x80`, zeros, and the 64-bit big-endian bit length. -/
def sha256Pad (msg : List Nat) : List Nat :=
  let bitLen := msg.length * 8
  let zeros := (64 - (msg.length + 9) % 64) % 64
  msg ++ [0x80] ++ List.replicate zeros 0 ++
    [bitLen / 72057594037927936 % 256, bitLen / 281474976710656 % 256,
     bitLen / 1099511627776 % 256, bitLen / 4294967296 % 256,
     bitLen / 16777216 % 256, bitLen / 65536 % 256,
     bitLen / 256 % 256, bitLen % 256]

/-- SHA-256 digest (32 bytes) of a byte list. -/
def sha256 (msg : List Nat) : List Nat :=
  let st := (chunks64 (sha256Pad msg)).foldl sha256Chunk sha256H0
  st.flatMap wordToBytes

/-- HMAC-SHA256 (`hmac.new(key, msg, hashlib.sha256)`). -/
def hmacSha256 (key msg : List Nat) : List Nat :=
  let k0 := if 64 < key.length then sha256 key else key
  let kp := k0 ++ List.replicate (64 - k0.length) 0
  let ipadK := kp.map (fun b => b ^^^ 0x36)
  let opadK := kp.map (fun b => b ^^^ 0x5c)
  sha256 (opadK ++ sha256 (ipadK ++ msg))

/-- Lower-case hex digit (as a code point). -/
def hexDigit (n : Nat) : Nat := if n < 10 then 48 + n else 87 + n

/-- `hexdigest()`: lower-case hex code points of a byte list. -/
def bytesToHex (bs : List Nat) : List Nat :=
  bs.flatMap (fun b => [hexDigit (b / 16 % 16), hexDigit (b % 16)])

/-! ## Python primitives used by the webhook receiver

`int(str)`, `bytes.decode("utf-8")`, `bytes(str, "latin-1")` as used in
main.py lines 55-94.
-/

/-- Python `str.strip()` whitespace (ASCII part). -/
def isPySpace (c : Nat) : Bool := c = 32 ∨ c = 9 ∨ c = 10 ∨ c = 13 ∨ c = 11 ∨ c = 12

/-- Strip leading/trailing whitespace (as `int()` does before parsing). -/
def pyStrip (s : List Nat) : List Nat :=
  ((s.dropWhile isPySpace).reverse.dropWhile isPySpace).reverse

/-- ASCII decimal digit. -/
def isDigitCp (c : Nat) : Bool := 48 ≤ c ∧ c ≤ 57

/-- Digits with optional single underscores between digits (Python 3 int
literal grouping), after the first digit. -/
def pyDigitsAux : List Nat → Nat → Option Nat
  | [], acc => some acc
  | 95 :: c :: rest, acc =>
      if isDigitCp c then pyDigitsAux rest (acc * 10 + (c - 48)) else none
  | [95], _ => none
  | c :: rest, acc =>
      if isDigitCp c then pyDigitsAux rest (acc * 10 + (c - 48)) else none

/-- A non-empty digit string, first character a digit. -/
def pyDigits : List Nat → Option Nat
  | c :: rest => if isDigitCp c then pyDigitsAux rest (c - 48) else none
  | [] => none

/-- Python `int(s)` for `str` input: strip, optional sign, digits; `None`
models a raised `ValueError`. -/
def pyIntParse (s : List Nat) : Option Int :=
  match pyStrip s with
  | 43 :: rest => (pyDigits rest).map Int.ofNat
  | 45 :: rest => (pyDigits rest).map (fun n => -(n : Int))
  | t => (pyDigits t).map Int.ofNat

/-- Strict UTF-8 decoding, fuel-bounded (each decoded code point consumes
one unit of fuel): rejects stray continuation bytes, overlong forms,
surrogates and out-of-range values. -/
def utf8DecodeAux : Nat → List Nat → Option (List Nat)
  | 0, _ => none
  | _ + 1, [] => some []
  | fuel + 1, b :: rest =>
    if b < 0x80 then (utf8DecodeAux fuel rest).map (b :: ·)
    else if b < 0xC2 then none
    else if b < 0xE0 then
      if 1 ≤ rest.length ∧ (0x80 ≤ rest.getD 0 0 ∧ rest.getD 0 0 < 0xC0) then
        (utf8DecodeAux fuel (rest.drop 1)).map
          (((b - 0xC0) * 64 + (rest.getD 0 0 - 0x80)) :: ·)
      else none
    else if b < 0xF0 then
      if 2 ≤ rest.length ∧ (0x80 ≤ rest.getD 0 0 ∧ rest.getD 0 0 < 0xC0) ∧
          (0x80 ≤ rest.getD 1 0 ∧ rest.getD 1 0 < 0xC0) ∧
          (b = 0xE0 → 0xA0 ≤ rest.getD 0 0) ∧
          (b = 0xED → rest.getD 0 0 < 0xA0) then
        (utf8DecodeAux fuel (rest.drop 2)).map
          (((b - 0xE0) * 4096 + (rest.getD 0 0 - 0x80) * 64 +
            (rest.getD 1 0 - 0x80)) :: ·)
      else none
    else if b < 0xF5 then
      if 3 ≤ rest.length ∧ (0x80 ≤ rest.getD 0 0 ∧ rest.getD 0 0 < 0xC0) ∧
          (0x80 ≤ rest.getD 1 0 ∧ rest.getD 1 0 < 0xC0) ∧
          (0x80 ≤ rest.getD 2 0 ∧ rest.getD 2 0 < 0xC0) ∧
          (b = 0xF0 → 0x90 ≤ rest.getD 0 0) ∧
          (b = 0xF4 → rest.getD 0 0 < 0x90) then
        (utf8DecodeAux fuel (rest.drop 3)).map
          (((b - 0xF0) * 262144 + (rest.getD 0 0 - 0x80) * 4096 +
            (rest.getD 1 0 - 0x80) * 64 + (rest.getD 2 0 - 0x80)) :: ·)
      else none
    else none

/-- Strict UTF-8 decoding (`bytes.decode("utf-8")`): `none` models a raised
`UnicodeDecodeError`. The fuel `length + 1` always suffices, since every
code point consumes at least one byte. -/
def utf8Decode (bs : List Nat) : Option (List Nat) :=
  utf8DecodeAux (bs.length + 1) bs

/-- UTF-8 encoding of one code point (`str.encode()`). -/
def utf8EncodeChar (c : Nat) : List Nat :=
  if c < 0x80 then [c]
  else if c < 0x800 then [0xC0 + c / 64, 0x80 + c % 64]
  else if c < 0x10000 then
    [0xE0 + c / 4096, 0x80 + c / 64 % 64, 0x80 + c % 64]
  else
    [0xF0 + c / 262144, 0x80 + c / 4096 % 64, 0x80 + c / 64 % 64, 0x80 + c % 64]

/-- UTF-8 encoding of a code-point string. -/
def utf8Encode (s : List Nat) : List Nat := s.flatMap utf8EncodeChar

/-- `bytes(s, "latin-1")`: identity on code points < 256, raises otherwise. -/
def latin1Encode (s : List Nat) : Option (List Nat) :=
  if s.all (· < 256) then some s else none

/-! ## Webhook signature verification

`verify_frameio_signature` (main.py lines 37-94). The ambient current time
(`int(time.time())`) and the configured tolerance
(`SIGNATURE_TIME_TOLERANCE`, default 300) are explicit parameters. Every
exception path of the function's `try` block returns `False`.
-/

/-- The signed string `f"v0:{timestamp}:{body.decode('utf-8')}"`. -/
def signatureMessage (timestamp bodyStr : List Nat) : List Nat :=
  pystr "v0:" ++ timestamp ++ pystr ":" ++ bodyStr

/-- The signature the gateway recomputes for a given decoded body:
`"v0=" + hmac_sha256_hexdigest(secret, message)`, with both strings encoded
latin-1 as in the source; `none` models a raised `UnicodeEncodeError`. -/
def expectedSignature (timestamp bodyStr secret : List Nat) : Option (List Nat) := do
  let kb ← latin1Encode secret
  let mb ← latin1Encode (signatureMessage timestamp bodyStr)
  pure (pystr "v0=" ++ bytesToHex (hmacSha256 kb mb))

/-- `verify_frameio_signature(timestamp, signature, body, secret)`
(main.py lines 37-94) at ambient time `now` with tolerance `tol`. -/
def verifyFrameioSignature (now : Int) (tol : Nat) (timestamp signature : List Nat)
    (body : List Nat) (secret : List Nat) : Bool :=
  match pyIntParse timestamp with
  | none => false
  | some request_time =>
    if tol < (now - request_time).natAbs then false
    else
      match utf8Decode body with
      | none => false
      | some bodyStr =>
        match expectedSignature timestamp bodyStr secret with
        | none => false
        | some calculated => calculated = signature

/-! ## URL-safe base64 (`base64.urlsafe_b64encode/b64decode`) -/

/-- URL-safe base64 alphabet (code point of digit `n < 64`). -/
def b64Char (n : Nat) : Nat :=
  if n < 26 then 65 + n
  else if n < 52 then 97 + (n - 26)
  else if n < 62 then 48 + (n - 52)
  else if n = 62 then 45
  else 95

/-- Index of a URL-safe base64 character, `none` for non-alphabet input. -/
def b64Index (c : Nat) : Option Nat :=
  if 65 ≤ c ∧ c ≤ 90 then some (c - 65)
  else if 97 ≤ c ∧ c ≤ 122 then some (c - 97 + 26)
  else if 48 ≤ c ∧ c ≤ 57 then some (c - 48 + 52)
  else if c = 45 then some 62
  else if c = 95 then some 63
  else none

/-- URL-safe base64 encoding with `=` padding, three input bytes at a time. -/
def b64Encode : List Nat → List Nat
  | [] => []
  | [b1] => [b64Char (b1 / 4), b64Char (b1 % 4 * 16), 61, 61]
  | [b1, b2] => [b64Char (b1 / 4), b64Char (b1 % 4 * 16 + b2 / 16),
      b64Char (b2 % 16 * 4), 61]
  | b1 :: b2 :: b3 :: rest =>
      b64Char (b1 / 4) :: b64Char (b1 % 4 * 16 + b2 / 16) ::
      b64Char (b2 % 16 * 4 + b3 / 64) :: b64Char (b3 % 64) :: b64Encode rest

/-- URL-safe base64 decoding, four characters at a time (with `=` padding
allowed only at the very end); `none` models a raised `binascii.Error`. -/
def b64Decode : List Nat → Option (List Nat)
  | c1 :: c2 :: c3 :: c4 :: rest =>
      if c3 = 61 ∧ c4 = 61 ∧ rest = [] then
        match b64Index c1, b64Index c2 with
        | some s1, some s2 => some [s1 * 4 + s2 / 16]
        | _, _ => none
      else if c4 = 61 ∧ rest = [] then
        match b64Index c1, b64Index c2, b64Index c3 with
        | some s1, some s2, some s3 =>
            some [s1 * 4 + s2 / 16, s2 % 16 * 16 + s3 / 4]
        | _, _, _ => none
      else
        match b64Index c1, b64Index c2, b64Index c3, b64Index c4,
            b64Decode rest with
        | some s1, some s2, some s3, some s4, some tail =>
            some ((s1 * 4 + s2 / 16) :: (s2 % 16 * 16 + s3 / 4) ::
              (s3 % 4 * 64 + s4) :: tail)
        | _, _, _, _, _ => none
  | [] => some []
  | _ => none

/-! ## Process configuration and startup

From app/main.py lines 69-72 (the only startup-time configuration check),
main.py lines 26-28 and 139-148, app/infrastructure/encryption.py
`_get_fernet` lines 26-56, and app/users/repository.py lines 20-24 and
212-242.
-/

/-- Environment-derived configuration surface of the two FastAPI apps. -/
structure ProcessConfig where
  session_secret_key : Option (List Nat)
  token_encryption_key : Option (List Nat)
  frameio_webhook_secret : Option (List Nat)
  verify_signatures : Bool
  signature_time_tolerance : Nat
  gcp_project_id : Option (List Nat)
deriving DecidableEq, Repr

/-- Module-level startup of app/main.py: the only configuration validated
at import time is `SESSION_SECRET_KEY` (lines 69-72). -/
def appStartup (cfg : ProcessConfig) : Except (List Nat) Unit :=
  if cfg.session_secret_key = none ∨ cfg.session_secret_key = some [] then
    .error (pystr "SESSION_SECRET_KEY is not set in the environment.")
  else .ok ()

/-- Module-level startup of the standalone receiver main.py (lines 26-34):
configuration values are read but none of their absences raises. -/
def receiverStartup (_cfg : ProcessConfig) : Except (List Nat) Unit := .ok ()

/-- `_get_fernet` (app/infrastructure/encryption.py lines 26-56), evaluated
lazily at the first encryption/decryption call: missing key raises
`ValueError`; otherwise `Fernet(key.encode())` requires the key to be
url-safe base64 of exactly 32 bytes. -/
def getFernet (cfg : ProcessConfig) : Except (List Nat) (List Nat) :=
  match cfg.token_encryption_key with
  | none =>
      .error (pystr "TOKEN_ENCRYPTION_KEY environment variable must be set for token encryption")
  | some k =>
      if k = [] then
        .error (pystr "TOKEN_ENCRYPTION_KEY environment variable must be set for token encryption")
      else
        match b64Decode (utf8Encode k) with
        | some bs =>
            if bs.length = 32 then .ok bs
            else .error (pystr "Invalid TOKEN_ENCRYPTION_KEY")
        | none => .error (pystr "Invalid TOKEN_ENCRYPTION_KEY")

/-- Which repository implementation `get_user_repository` selects. -/
inductive RepoKind where
  | firestore
  | inMemory
deriving DecidableEq, Repr

/-- `_is_firestore_configured` (app/users/repository.py lines 20-24). -/
def isFirestoreConfigured (cfg : ProcessConfig) : Bool :=
  cfg.gcp_project_id ≠ none ∧ cfg.token_encryption_key ≠ none

/-- `get_user_repository` (app/users/repository.py lines 212-242): silently
falls back to the in-memory repository when Firestore (project id and
encryption key) is not configured. -/
def getUserRepositoryKind (cfg : ProcessConfig) : RepoKind :=
  if isFirestoreConfigured cfg then .firestore else .inMemory

/-! ## JSON values and `json.loads`

Acceptance model of Python's `json.loads` over the decoded body string,
as called in main.py line 174 and app/api/frameio.py line 57: JSON values
with objects as (last-wins) association lists; numbers keep their lexeme
(no float semantics are needed by the endpoints). Includes Python's
`NaN`/`Infinity`/`-Infinity` extension.
-/

/-- Parsed JSON value (`json.loads` result). -/
inductive Json where
  | null
  | bool (b : Bool)
  | str (s : List Nat)
  | num (lexeme : List Nat)
  | arr (items : List Json)
  | obj (fields : List (List Nat × Json))
deriving Repr

/-- JSON structural whitespace. -/
def skipJsonWs (s : List Nat) : List Nat :=
  s.dropWhile (fun c => c = 32 ∨ c = 9 ∨ c = 10 ∨ c = 13)

/-- Strip an expected literal, `none` if it does not match. -/
def dropLit : List Nat → List Nat → Option (List Nat)
  | [], s => some s
  | p :: ps, c :: cs => if c = p then dropLit ps cs else none
  | _ :: _, [] => none

/-- Value of one hex digit (`\uXXXX` escapes). -/
def hexNibble (c : Nat) : Option Nat :=
  if 48 ≤ c ∧ c ≤ 57 then some (c - 48)
  else if 97 ≤ c ∧ c ≤ 102 then some (c - 87)
  else if 65 ≤ c ∧ c ≤ 70 then some (c - 55)
  else none

/-- Code point denoted by a single-character JSON escape, if valid. -/
def jsonEscapeChar (e : Nat) : Option Nat :=
  if e = 34 then some 34
  else if e = 92 then some 92
  else if e = 47 then some 47
  else if e = 98 then some 8
  else if e = 102 then some 12
  else if e = 110 then some 10
  else if e = 114 then some 13
  else if e = 116 then some 9
  else none

/-- JSON string contents up to the closing quote, with escapes
(`\uXXXX` taken as a single code point); rejects raw control characters. -/
def parseJsonString : List Nat → Option (List Nat × List Nat)
  | [] => none
  | 34 :: rest => some ([], rest)
  | 92 :: 117 :: rest =>
      match rest with
      | h1 :: h2 :: h3 :: h4 :: rest' =>
          match hexNibble h1, hexNibble h2, hexNibble h3, hexNibble h4 with
          | some v1, some v2, some v3, some v4 =>
              (parseJsonString rest').map
                (fun p => ((v1 * 4096 + v2 * 256 + v3 * 16 + v4) :: p.1, p.2))
          | _, _, _, _ => none
      | _ => none
  | 92 :: e :: rest =>
      match jsonEscapeChar e with
      | some c => (parseJsonString rest).map (fun p => (c :: p.1, p.2))
      | none => none
  | c :: rest =>
      if c < 32 then none
      else (parseJsonString rest).map (fun p => (c :: p.1, p.2))

/-- Maximal match of the JSON number grammar starting at a digit or `-`;
returns the lexeme and the rest. -/
def parseJsonNumber (s : List Nat) : Option (List Nat × List Nat) :=
  let digits (t : List Nat) : List Nat × List Nat :=
    (t.takeWhile isDigitCp, t.dropWhile isDigitCp)
  let intPart (t : List Nat) : Option (List Nat × List Nat) :=
    match t with
    | 48 :: rest => some ([48], rest)
    | c :: _ =>
        if isDigitCp c then some (digits t) else none
    | [] => none
  let (sign, s1) :=
    match s with
    | 45 :: rest => ([45], rest)
    | _ => (([] : List Nat), s)
  match intPart s1 with
  | none => none
  | some (ip, s2) =>
      let (fp, s3) :=
        match s2 with
        | 46 :: d :: rest =>
            if isDigitCp d then
              let (ds, r) := digits (d :: rest)
              (46 :: ds, r)
            else (([] : List Nat), s2)
        | _ => (([] : List Nat), s2)
      let (ep, s4) :=
        match s3 with
        | e :: rest =>
            if e = 101 ∨ e = 69 then
              match rest with
              | sgn :: d :: rest' =>
                  if (sgn = 43 ∨ sgn = 45) ∧ isDigitCp d then
                    let (ds, r) := digits (d :: rest')
                    (e :: sgn :: ds, r)
                  else if isDigitCp sgn then
                    let (ds, r) := digits (sgn :: d :: rest')
                    (e :: ds, r)
                  else (([] : List Nat), s3)
              | [d] =>
                  if isDigitCp d then ([e, d], ([] : List Nat))
                  else (([] : List Nat), s3)
              | [] => (([] : List Nat), s3)
            else (([] : List Nat), s3)
        | [] => (([] : List Nat), s3)
      some (sign ++ ip ++ fp ++ ep, s4)

mutual

/-- One JSON value (with leading whitespace), fuel-bounded. -/
def parseJsonValue : Nat → List Nat → Option (Json × List Nat)
  | 0, _ => none
  | fuel + 1, s =>
    match skipJsonWs s with
    | [] => none
    | c :: rest =>
      if c = 110 then (dropLit (pystr "ull") rest).map (fun r => (Json.null, r))
      else if c = 116 then (dropLit (pystr "rue") rest).map (fun r => (Json.bool true, r))
      else if c = 102 then (dropLit (pystr "alse") rest).map (fun r => (Json.bool false, r))
      else if c = 78 then (dropLit (pystr "aN") rest).map (fun r => (Json.num (pystr "NaN"), r))
      else if c = 73 then
        (dropLit (pystr "nfinity") rest).map (fun r => (Json.num (pystr "Infinity"), r))
      else if c = 45 ∧ rest.headD 0 = 73 then
        (dropLit (pystr "Infinity") rest).map
          (fun r => (Json.num (pystr "-Infinity"), r))
      else if c = 34 then
        (parseJsonString rest).map (fun p => (Json.str p.1, p.2))
      else if c = 91 then
        match skipJsonWs rest with
        | 93 :: r => some (Json.arr [], r)
        | _ => (parseJsonItems fuel rest).map (fun p => (Json.arr p.1, p.2))
      else if c = 123 then
        match skipJsonWs rest with
        | 125 :: r => some (Json.obj [], r)
        | _ => (parseJsonFields fuel rest).map (fun p => (Json.obj p.1, p.2))
      else
        (parseJsonNumber (c :: rest)).map (fun p => (Json.num p.1, p.2))

/-- Array items after `[` (or after a `,`), fuel-bounded. -/
def parseJsonItems : Nat → List Nat → Option (List Json × List Nat)
  | 0, _ => none
  | fuel + 1, s => do
    let (v, r1) ← parseJsonValue fuel s
    match skipJsonWs r1 with
    | 93 :: r2 => some ([v], r2)
    | 44 :: r2 => (parseJsonItems fuel r2).map (fun p => (v :: p.1, p.2))
    | _ => none

/-- Object fields after `{` (or after a `,`), fuel-bounded; later duplicate
keys overwrite earlier ones (`dict` semantics). -/
def parseJsonFields : Nat → List Nat → Option (List (List Nat × Json) × List Nat)
  | 0, _ => none
  | fuel + 1, s =>
    match skipJsonWs s with
    | 34 :: rest => do
        let (key, r1) ← parseJsonString rest
        match skipJsonWs r1 with
        | 58 :: r2 => do
            let (v, r3) ← parseJsonValue fuel r2
            match skipJsonWs r3 with
            | 125 :: r4 => some ([(key, v)], r4)
            | 44 :: r4 =>
                (parseJsonFields fuel r4).map
                  (fun p =>
                    (match alistGet key p.1 with
                      | some _ => p.1
                      | none => (key, v) :: p.1, p.2))
            | _ => none
        | _ => none
    | _ => none

end

/-- `json.loads` over a decoded string: a single JSON value with no
trailing data. -/
def jsonLoads (s : List Nat) : Option Json :=
  match parseJsonValue (s.length + 2) s with
  | some (v, rest) => if skipJsonWs rest = [] then some v else none
  | none => none

/-! ## The two webhook endpoints

`frameio_webhook` of the standalone receiver (main.py lines 113-232) and of
the service app (app/api/frameio.py lines 32-112), modelled down to the
HTTP status code they produce.
-/

/-- Truthiness of a JSON value (Python `if not v`). -/
def jsonFalsy : Json → Bool
  | .null => true
  | .bool b => !b
  | .str s => s.isEmpty
  | .arr l => l.isEmpty
  | .obj l => l.isEmpty
  | .num lex =>
      -- a numeric literal is falsy iff its value is zero
      if lex.contains 78 ∨ lex.contains 73 then false
      else (lex.takeWhile (fun c => c ≠ 101 ∧ c ≠ 69)).all
        (fun c => c = 48 ∨ c = 45 ∨ c = 46)

/-- `FrameIOEvent(**payload)` (app/core/domain.py lines 13-45): pydantic
requires the `type` key; the `mode="before"` validator turns a provided
falsy value into `"unknown"`; any other non-string value fails validation.
Returns the validated event type. -/
def mkFrameIOEvent (fields : List (List Nat × Json)) : Except (List Nat) (List Nat) :=
  match alistGet (pystr "type") fields with
  | none => .error (pystr "Field required: type")
  | some v =>
      if jsonFalsy v then .ok (pystr "unknown")
      else
        match v with
        | .str s => .ok s
        | _ => .error (pystr "Input should be a valid string: type")

/-- The `payload.get("resource", {}).get(...)`-style extraction chain used
by both endpoints (main.py lines 180-187, app/api/frameio.py lines 63-70):
it raises `AttributeError` when one of these keys is present with a
non-object value. -/
def getChainOk (fields : List (List Nat × Json)) : Bool :=
  [pystr "resource", pystr "account", pystr "workspace",
   pystr "project", pystr "user"].all
    (fun k =>
      match alistGet k fields with
      | some (.obj _) => true
      | some _ => false
      | none => true)

/-- Body handling shared shape: decode UTF-8, `json.loads`, and on parse
failure fall back to `{"raw_body": <decoded body or None>}`
(main.py lines 172-177, app/api/frameio.py lines 55-60). `none` models an
exception escaping to the endpoint's outer `except` handler. -/
def parsedPayload (body : List Nat) : Option Json :=
  match utf8Decode body with
  | none => none
  | some bodyStr =>
      match jsonLoads bodyStr with
      | some payload => some payload
      | none =>
          some (.obj [(pystr "raw_body",
            if body.isEmpty then Json.null else Json.str bodyStr)])

/-- Status code of the standalone receiver's processing section after
signature checks (main.py lines 172-232): logging a payload succeeds (200)
unless decoding raised or the payload is not a `dict`-shaped value for the
`.get` chains (500 via the outer `except`). -/
def receiverProcess (body : List Nat) : Nat :=
  match parsedPayload body with
  | none => 500
  | some (.obj fields) => if getChainOk fields then 200 else 500
  | some _ => 500

/-- Status code of the standalone receiver endpoint (main.py lines
113-232): configuration check (500), falsy header check (401), signature
verification (401), then payload processing. -/
def receiverWebhook (cfg : ProcessConfig) (now : Int)
    (tsHeader sigHeader : Option (List Nat)) (body : List Nat) : Nat :=
  if cfg.verify_signatures then
    if cfg.frameio_webhook_secret = none ∨ cfg.frameio_webhook_secret = some [] then
      500
    else
      match tsHeader, sigHeader with
      | some ts, some sig =>
          if ts = [] ∨ sig = [] then 401
          else if verifyFrameioSignature now cfg.signature_time_tolerance ts sig
              body (cfg.frameio_webhook_secret.getD []) then
            receiverProcess body
          else 401
      | _, _ => 401
  else receiverProcess body

/-- Status code of the service app's webhook endpoint
(app/api/frameio.py lines 32-112): decode/parse with `raw_body` fallback,
`.get` extraction chain, `FrameIOEvent` validation, then
`process_webhook`; every raised exception is mapped to 500, success with a
message id to 200. -/
def appFrameioWebhook (body : List Nat) (publish : PublishOutcome) : Nat :=
  match parsedPayload body with
  | none => 500
  | some (.obj fields) =>
      if getChainOk fields then
        match mkFrameIOEvent fields with
        | .error _ => 500
        | .ok _ =>
            match processWebhook publish with
            | .ok _ => 200
            | .error _ => 500
      else 500
  | some _ => 500

/-! ## AES-128

Executable model of the AES-128 block cipher used (in CBC mode) by the
Fernet layer behind `encrypt_token` / `decrypt_token`
(app/infrastructure/encryption.py). Bytes are `Nat` values < 256; the
16-byte state is a structure in AES column-major order.
-/

/-- AES S-box. -/
def sboxTable : List Nat :=
  [0x63, 0x7c, 0x77, 0x7b, 0xf2, 0x6b, 0x6f, 0xc5,
   0x30, 0x01, 0x67, 0x2b, 0xfe, 0xd7, 0xab, 0x76,
   0xca, 0x82, 0xc9, 0x7d, 0xfa, 0x59, 0x47, 0xf0,
   0xad, 0xd4, 0xa2, 0xaf, 0x9c, 0xa4, 0x72, 0xc0,
   0xb7, 0xfd, 0x93, 0x26, 0x36, 0x3f, 0xf7, 0xcc,
   0x34, 0xa5, 0xe5, 0xf1, 0x71, 0xd8, 0x31, 0x15,
   0x04, 0xc7, 0x23, 0xc3, 0x18, 0x96, 0x05, 0x9a,
   0x07, 0x12, 0x80, 0xe2, 0xeb, 0x27, 0xb2, 0x75,
   0x09, 0x83, 0x2c, 0x1a, 0x1b, 0x6e, 0x5a, 0xa0,
   0x52, 0x3b, 0xd6, 0xb3, 0x29, 0xe3, 0x2f, 0x84,
   0x53, 0xd1, 0x00, 0xed, 0x20, 0xfc, 0xb1, 0x5b,
   0x6a, 0xcb, 0xbe, 0x39, 0x4a, 0x4c, 0x58, 0xcf,
   0xd0, 0xef, 0xaa, 0xfb, 0x43, 0x4d, 0x33, 0x85,
   0x45, 0xf9, 0x02, 0x7f, 0x50, 0x3c, 0x9f, 0xa8,
   0x51, 0xa3, 0x40, 0x8f, 0x92, 0x9d, 0x38, 0xf5,
   0xbc, 0xb6, 0xda, 0x21, 0x10, 0xff, 0xf3, 0xd2,
   0xcd, 0x0c, 0x13, 0xec, 0x5f, 0x97, 0x44, 0x17,
   0xc4, 0xa7, 0x7e, 0x3d, 0x64, 0x5d, 0x19, 0x73,
   0x60, 0x81, 0x4f, 0xdc, 0x22, 0x2a, 0x90, 0x88,
   0x46, 0xee, 0xb8, 0x14, 0xde, 0x5e, 0x0b, 0xdb,
   0xe0, 0x32, 0x3a, 0x0a, 0x49, 0x06, 0x24, 0x5c,
   0xc2, 0xd3, 0xac, 0x62, 0x91, 0x95, 0xe4, 0x79,
   0xe7, 0xc8, 0x37, 0x6d, 0x8d, 0xd5, 0x4e, 0xa9,
   0x6c, 0x56, 0xf4, 0xea, 0x65, 0x7a, 0xae, 0x08,
   0xba, 0x78, 0x25, 0x2e, 0x1c, 0xa6, 0xb4, 0xc6,
   0xe8, 0xdd, 0x74, 0x1f, 0x4b, 0xbd, 0x8b, 0x8a,
   0x70, 0x3e, 0xb5, 0x66, 0x48, 0x03, 0xf6, 0x0e,
   0x61, 0x35, 0x57, 0xb9, 0x86, 0xc1, 0x1d, 0x9e,
   0xe1, 0xf8, 0x98, 0x11, 0x69, 0xd9, 0x8e, 0x94,
   0x9b, 0x1e, 0x87, 0xe9, 0xce, 0x55, 0x28, 0xdf,
   0x8c, 0xa1, 0x89, 0x0d, 0xbf, 0xe6, 0x42, 0x68,
   0x41, 0x99, 0x2d, 0x0f, 0xb0, 0x54, 0xbb, 0x16]

/-- AES inverse S-box. -/
def invSboxTable : List Nat :=
  [0x52, 0x09, 0x6a, 0xd5, 0x30, 0x36, 0xa5, 0x38,
   0xbf, 0x40, 0xa3, 0x9e, 0x81, 0xf3, 0xd7, 0xfb,
   0x7c, 0xe3, 0x39, 0x82, 0x9b, 0x2f, 0xff, 0x87,
   0x34, 0x8e, 0x43, 0x44, 0xc4, 0xde, 0xe9, 0xcb,
   0x54, 0x7b, 0x94, 0x32, 0xa6, 0xc2, 0x23, 0x3d,
   0xee, 0x4c, 0x95, 0x0b, 0x42, 0xfa, 0xc3, 0x4e,
   0x08, 0x2e, 0xa1, 0x66, 0x28, 0xd9, 0x24, 0xb2,
   0x76, 0x5b, 0xa2, 0x49, 0x6d, 0x8b, 0xd1, 0x25,
   0x72, 0xf8, 0xf6, 0x64, 0x86, 0x68, 0x98, 0x16,
   0xd4, 0xa4, 0x5c, 0xcc, 0x5d, 0x65, 0xb6, 0x92,
   0x6c, 0x70, 0x48, 0x50, 0xfd, 0xed, 0xb9, 0xda,
   0x5e, 0x15, 0x46, 0x57, 0xa7, 0x8d, 0x9d, 0x84,
   0x90, 0xd8, 0xab, 0x00, 0x8c, 0xbc, 0xd3, 0x0a,
   0xf7, 0xe4, 0x58, 0x05, 0xb8, 0xb3, 0x45, 0x06,
   0xd0, 0x2c, 0x1e, 0x8f, 0xca, 0x3f, 0x0f, 0x02,
   0xc1, 0xaf, 0xbd, 0x03, 0x01, 0x13, 0x8a, 0x6b,
   0x3a, 0x91, 0x11, 0x41, 0x4f, 0x67, 0xdc, 0xea,
   0x97, 0xf2, 0xcf, 0xce, 0xf0, 0xb4, 0xe6, 0x73,
   0x96, 0xac, 0x74, 0x22, 0xe7, 0xad, 0x35, 0x85,
   0xe2, 0xf9, 0x37, 0xe8, 0x1c, 0x75, 0xdf, 0x6e,
   0x47, 0xf1, 0x1a, 0x71, 0x1d, 0x29, 0xc5, 0x89,
   0x6f, 0xb7, 0x62, 0x0e, 0xaa, 0x18, 0xbe, 0x1b,
   0xfc, 0x56, 0x3e, 0x4b, 0xc6, 0xd2, 0x79, 0x20,
   0x9a, 0xdb, 0xc0, 0xfe, 0x78, 0xcd, 0x5a, 0xf4,
   0x1f, 0xdd, 0xa8, 0x33, 0x88, 0x07, 0xc7, 0x31,
   0xb1, 0x12, 0x10, 0x59, 0x27, 0x80, 0xec, 0x5f,
   0x60, 0x51, 0x7f, 0xa9, 0x19, 0xb5, 0x4a, 0x0d,
   0x2d, 0xe5, 0x7a, 0x9f, 0x93, 0xc9, 0x9c, 0xef,
   0xa0, 0xe0, 0x3b, 0x4d, 0xae, 0x2a, 0xf5, 0xb0,
   0xc8, 0xeb, 0xbb, 0x3c, 0x83, 0x53, 0x99, 0x61,
   0x17, 0x2b, 0x04, 0x7e, 0xba, 0x77, 0xd6, 0x26,
   0xe1, 0x69, 0x14, 0x63, 0x55, 0x21, 0x0c, 0x7d]

/-- S-box lookup. -/
def sboxAt (b : Nat) : Nat := sboxTable.getD b 0

/-- Inverse S-box lookup. -/
def invSboxAt (b : Nat) : Nat := invSboxTable.getD b 0

/-- Multiplication by `x` in GF(2^8) modulo `x^8 + x^4 + x^3 + x + 1`. -/
def xtime (x : Nat) : Nat := if 128 ≤ x then (2 * x) ^^^ 283 else 2 * x

/-- GF(2^8) multiplication by 2. -/
def gm2 (x : Nat) : Nat := xtime x

/-- GF(2^8) multiplication by 3. -/
def gm3 (x : Nat) : Nat := xtime x ^^^ x

/-- GF(2^8) multiplication by 9. -/
def gm9 (x : Nat) : Nat := xtime (xtime (xtime x)) ^^^ x

/-- GF(2^8) multiplication by 11. -/
def gm11 (x : Nat) : Nat := xtime (xtime (xtime x)) ^^^ xtime x ^^^ x

/-- GF(2^8) multiplication by 13. -/
def gm13 (x : Nat) : Nat := xtime (xtime (xtime x)) ^^^ xtime (xtime x) ^^^ x

/-- GF(2^8) multiplication by 14. -/
def gm14 (x : Nat) : Nat := xtime (xtime (xtime x)) ^^^ xtime (xtime x) ^^^ xtime x

/-- AES state, column-major: byte `i` sits at row `i % 4`, column `i / 4`. -/
structure AESState where
  s0 : Nat
  s1 : Nat
  s2 : Nat
  s3 : Nat
  s4 : Nat
  s5 : Nat
  s6 : Nat
  s7 : Nat
  s8 : Nat
  s9 : Nat
  s10 : Nat
  s11 : Nat
  s12 : Nat
  s13 : Nat
  s14 : Nat
  s15 : Nat
deriving DecidableEq, Repr

/-- All sixteen state bytes are below 256. -/
def StateLT (st : AESState) : Prop :=
  st.s0 < 256 ∧ st.s1 < 256 ∧ st.s2 < 256 ∧ st.s3 < 256 ∧
  st.s4 < 256 ∧ st.s5 < 256 ∧ st.s6 < 256 ∧ st.s7 < 256 ∧
  st.s8 < 256 ∧ st.s9 < 256 ∧ st.s10 < 256 ∧ st.s11 < 256 ∧
  st.s12 < 256 ∧ st.s13 < 256 ∧ st.s14 < 256 ∧ st.s15 < 256

instance (st : AESState) : Decidable (StateLT st) := by
  unfold StateLT
  infer_instance

/-- SubBytes. -/
def subBytes (st : AESState) : AESState :=
  ⟨sboxAt st.s0, sboxAt st.s1, sboxAt st.s2, sboxAt st.s3,
   sboxAt st.s4, sboxAt st.s5, sboxAt st.s6, sboxAt st.s7,
   sboxAt st.s8, sboxAt st.s9, sboxAt st.s10, sboxAt st.s11,
   sboxAt st.s12, sboxAt st.s13, sboxAt st.s14, sboxAt st.s15⟩

/-- InvSubBytes. -/
def invSubBytes (st : AESState) : AESState :=
  ⟨invSboxAt st.s0, invSboxAt st.s1, invSboxAt st.s2, invSboxAt st.s3,
   invSboxAt st.s4, invSboxAt st.s5, invSboxAt st.s6, invSboxAt st.s7,
   invSboxAt st.s8, invSboxAt st.s9, invSboxAt st.s10, invSboxAt st.s11,
   invSboxAt st.s12, invSboxAt st.s13, invSboxAt st.s14, invSboxAt st.s15⟩

/-- ShiftRows (row `r` rotated left by `r`). -/
def shiftRows (st : AESState) : AESState :=
  ⟨st.s0, st.s5, st.s10, st.s15,
   st.s4, st.s9, st.s14, st.s3,
   st.s8, st.s13, st.s2, st.s7,
   st.s12, st.s1, st.s6, st.s11⟩

/-- InvShiftRows. -/
def invShiftRows (st : AESState) : AESState :=
  ⟨st.s0, st.s13, st.s10, st.s7,
   st.s4, st.s1, st.s14, st.s11,
   st.s8, st.s5, st.s2, st.s15,
   st.s12, st.s9, st.s6, st.s3⟩

/-- MixColumns, row 0 of one column. -/
def mc0 (a b c d : Nat) : Nat := gm2 a ^^^ gm3 b ^^^ c ^^^ d

/-- MixColumns, row 1 of one column. -/
def mc1 (a b c d : Nat) : Nat := a ^^^ gm2 b ^^^ gm3 c ^^^ d

/-- MixColumns, row 2 of one column. -/
def mc2 (a b c d : Nat) : Nat := a ^^^ b ^^^ gm2 c ^^^ gm3 d

/-- MixColumns, row 3 of one column. -/
def mc3 (a b c d : Nat) : Nat := gm3 a ^^^ b ^^^ c ^^^ gm2 d

/-- InvMixColumns, row 0 of one column. -/
def imc0 (a b c d : Nat) : Nat := gm14 a ^^^ gm11 b ^^^ gm13 c ^^^ gm9 d

/-- InvMixColumns, row 1 of one column. -/
def imc1 (a b c d : Nat) : Nat := gm9 a ^^^ gm14 b ^^^ gm11 c ^^^ gm13 d

/-- InvMixColumns, row 2 of one column. -/
def imc2 (a b c d : Nat) : Nat := gm13 a ^^^ gm9 b ^^^ gm14 c ^^^ gm11 d

/-- InvMixColumns, row 3 of one column. -/
def imc3 (a b c d : Nat) : Nat := gm11 a ^^^ gm13 b ^^^ gm9 c ^^^ gm14 d

/-- MixColumns. -/
def mixColumns (st : AESState) : AESState :=
  ⟨mc0 st.s0 st.s1 st.s2 st.s3, mc1 st.s0 st.s1 st.s2 st.s3,
   mc2 st.s0 st.s1 st.s2 st.s3, mc3 st.s0 st.s1 st.s2 st.s3,
   mc0 st.s4 st.s5 st.s6 st.s7, mc1 st.s4 st.s5 st.s6 st.s7,
   mc2 st.s4 st.s5 st.s6 st.s7, mc3 st.s4 st.s5 st.s6 st.s7,
   mc0 st.s8 st.s9 st.s10 st.s11, mc1 st.s8 st.s9 st.s10 st.s11,
   mc2 st.s8 st.s9 st.s10 st.s11, mc3 st.s8 st.s9 st.s10 st.s11,
   mc0 st.s12 st.s13 st.s14 st.s15, mc1 st.s12 st.s13 st.s14 st.s15,
   mc2 st.s12 st.s13 st.s14 st.s15, mc3 st.s12 st.s13 st.s14 st.s15⟩

/-- InvMixColumns. -/
def invMixColumns (st : AESState) : AESState :=
  ⟨imc0 st.s0 st.s1 st.s2 st.s3, imc1 st.s0 st.s1 st.s2 st.s3,
   imc2 st.s0 st.s1 st.s2 st.s3, imc3 st.s0 st.s1 st.s2 st.s3,
   imc0 st.s4 st.s5 st.s6 st.s7, imc1 st.s4 st.s5 st.s6 st.s7,
   imc2 st.s4 st.s5 st.s6 st.s7, imc3 st.s4 st.s5 st.s6 st.s7,
   imc0 st.s8 st.s9 st.s10 st.s11, imc1 st.s8 st.s9 st.s10 st.s11,
   imc2 st.s8 st.s9 st.s10 st.s11, imc3 st.s8 st.s9 st.s10 st.s11,
   imc0 st.s12 st.s13 st.s14 st.s15, imc1 st.s12 st.s13 st.s14 st.s15,
   imc2 st.s12 st.s13 st.s14 st.s15, imc3 st.s12 st.s13 st.s14 st.s15⟩

/-- AddRoundKey (also the CBC xor of two 16-byte blocks). -/
def addRoundKey (k st : AESState) : AESState :=
  ⟨st.s0 ^^^ k.s0, st.s1 ^^^ k.s1, st.s2 ^^^ k.s2, st.s3 ^^^ k.s3,
   st.s4 ^^^ k.s4, st.s5 ^^^ k.s5, st.s6 ^^^ k.s6, st.s7 ^^^ k.s7,
   st.s8 ^^^ k.s8, st.s9 ^^^ k.s9, st.s10 ^^^ k.s10, st.s11 ^^^ k.s11,
   st.s12 ^^^ k.s12, st.s13 ^^^ k.s13, st.s14 ^^^ k.s14, st.s15 ^^^ k.s15⟩

/-- The nine middle encryption rounds. -/
def aesEncryptRounds : List AESState → AESState → AESState
  | [], st => st
  | k :: rest, st =>
      aesEncryptRounds rest (addRoundKey k (mixColumns (shiftRows (subBytes st))))

/-- The nine middle decryption rounds, keys in reverse order. -/
def aesDecryptRounds : List AESState → AESState → AESState
  | [], st => st
  | k :: rest, st =>
      aesDecryptRounds rest (invSubBytes (invShiftRows (invMixColumns (addRoundKey k st))))

/-- AES block encryption from an expanded key `(k0, mids, klast)`. -/
def aesEncryptCore (k0 : AESState) (mids : List AESState) (klast : AESState)
    (st : AESState) : AESState :=
  addRoundKey klast (shiftRows (subBytes (aesEncryptRounds mids (addRoundKey k0 st))))

/-- AES block decryption from an expanded key `(k0, mids, klast)`. -/
def aesDecryptCore (k0 : AESState) (mids : List AESState) (klast : AESState)
    (st : AESState) : AESState :=
  addRoundKey k0 (aesDecryptRounds mids.reverse
    (invSubBytes (invShiftRows (addRoundKey klast st))))

/-- Rcon byte for round `j`. -/
def rconByte (j : Nat) : Nat :=
  [0, 1, 2, 4, 8, 16, 32, 64, 128, 27, 54].getD j 0

/-- RotWord. -/
def rotWord : List Nat → List Nat
  | [a, b, c, d] => [b, c, d, a]
  | w => w

/-- SubWord. -/
def subWord (w : List Nat) : List Nat := w.map sboxAt

/-- Four-byte words of a byte list. -/
def chunks4 : List Nat → List (List Nat)
  | b1 :: b2 :: b3 :: b4 :: rest => [b1, b2, b3, b4] :: chunks4 rest
  | _ => []

/-- Word-wise xor. -/
def zipXor (a b : List Nat) : List Nat := List.zipWith (· ^^^ ·) a b

/-- AES-128 key expansion: extend the four key words by `n` more words. -/
def keyExpandAux : Nat → List (List Nat) → List (List Nat)
  | 0, ws => ws
  | n + 1, ws =>
      let i := ws.length
      let prev := ws.getD (i - 1) []
      let t :=
        if i % 4 = 0 then
          zipXor (subWord (rotWord prev)) [rconByte (i / 4), 0, 0, 0]
        else prev
      keyExpandAux n (ws ++ [zipXor (ws.getD (i - 4) []) t])

/-- The all-zero state. -/
def zeroState : AESState := ⟨0, 0, 0, 0, 0, 0, 0, 0, 0, 0, 0, 0, 0, 0, 0, 0⟩

/-- Group a byte list into 16-byte states (column-major); a trailing
fragment shorter than 16 bytes is dropped. -/
def bytesToStates : List Nat → List AESState
  | b0 :: b1 :: b2 :: b3 :: b4 :: b5 :: b6 :: b7 ::
    b8 :: b9 :: b10 :: b11 :: b12 :: b13 :: b14 :: b15 :: rest =>
      (⟨b0, b1, b2, b3, b4, b5, b6, b7,
        b8, b9, b10, b11, b12, b13, b14, b15⟩ : AESState) :: bytesToStates rest
  | _ => []

/-- The sixteen bytes of a state. -/
def stateToList (st : AESState) : List Nat :=
  [st.s0, st.s1, st.s2, st.s3, st.s4, st.s5, st.s6, st.s7,
   st.s8, st.s9, st.s10, st.s11, st.s12, st.s13, st.s14, st.s15]

/-- Serialize a block sequence back to bytes. -/
def statesToBytes : List AESState → List Nat
  | [] => []
  | st :: rest => stateToList st ++ statesToBytes rest

/-- One byte list as a single state (must have 16 bytes). -/
def listToState (l : List Nat) : AESState :=
  match l with
  | [b0, b1, b2, b3, b4, b5, b6, b7, b8, b9, b10, b11, b12, b13, b14, b15] =>
      ⟨b0, b1, b2, b3, b4, b5, b6, b7, b8, b9, b10, b11, b12, b13, b14, b15⟩
  | _ => zeroState

/-- AES-128 key schedule: the eleven round keys of a 16-byte key. -/
def keySchedule (key : List Nat) : List AESState :=
  bytesToStates ((keyExpandAux 40 (chunks4 key)).flatMap id)

/-- AES-128 block encryption with a 16-byte key. -/
def aesEncryptBlock (key : List Nat) (st : AESState) : AESState :=
  match keySchedule key with
  | k0 :: rest => aesEncryptCore k0 rest.dropLast (rest.getLastD k0) st
  | [] => st

/-- AES-128 block decryption with a 16-byte key. -/
def aesDecryptBlock (key : List Nat) (st : AESState) : AESState :=
  match keySchedule key with
  | k0 :: rest => aesDecryptCore k0 rest.dropLast (rest.getLastD k0) st
  | [] => st

/-! ## CBC mode, PKCS#7 and the Fernet token layer

`cryptography.fernet.Fernet` as wrapped by `encrypt_token` /
`decrypt_token` (app/infrastructure/encryption.py lines 59-111): token =
url-safe base64 of `0x80 || timestamp(8,BE) || IV(16) ||
AES128-CBC(PKCS7(msg)) || HMAC-SHA256(signing key, all previous bytes)`,
with the 32-byte key split into signing (first 16) and encryption
(last 16) halves. The random IV and the clock are explicit parameters.
-/

/-- CBC encryption over 16-byte states (`prev` starts as the IV). -/
def cbcEncryptStates (key : List Nat) (prev : AESState) :
    List AESState → List AESState
  | [] => []
  | p :: rest =>
      let c := aesEncryptBlock key (addRoundKey prev p)
      c :: cbcEncryptStates key c rest

/-- CBC decryption over 16-byte states (`prev` starts as the IV). -/
def cbcDecryptStates (key : List Nat) (prev : AESState) :
    List AESState → List AESState
  | [] => []
  | c :: rest =>
      addRoundKey prev (aesDecryptBlock key c) :: cbcDecryptStates key c rest

/-- PKCS#7 padding to a multiple of 16 bytes. -/
def pkcs7Pad (bs : List Nat) : List Nat :=
  let p := 16 - bs.length % 16
  bs ++ List.replicate p p

/-- PKCS#7 unpadding; `none` models an invalid-padding error. -/
def pkcs7Unpad (bs : List Nat) : Option (List Nat) :=
  match bs.getLast? with
  | none => none
  | some p =>
      if 1 ≤ p ∧ p ≤ 16 ∧ p ≤ bs.length ∧
          (bs.drop (bs.length - p)).all (· = p) then
        some (bs.take (bs.length - p))
      else none

/-- Big-endian 8-byte timestamp field. -/
def tsBytes8 (ts : Nat) : List Nat :=
  [ts / 72057594037927936 % 256, ts / 281474976710656 % 256,
   ts / 1099511627776 % 256, ts / 4294967296 % 256,
   ts / 16777216 % 256, ts / 65536 % 256, ts / 256 % 256, ts % 256]

/-- All entries are bytes. -/
def ListLT (l : List Nat) : Prop := ∀ b ∈ l, b < 256

/-- The raw Fernet token bytes for key, timestamp, IV and message bytes. -/
def fernetTokenBytes (key32 : List Nat) (ts : Nat) (iv : List Nat)
    (msg : List Nat) : List Nat :=
  let encKey := key32.drop 16
  let ct := statesToBytes
    (cbcEncryptStates encKey (listToState iv) (bytesToStates (pkcs7Pad msg)))
  let body := 128 :: (tsBytes8 ts ++ iv ++ ct)
  body ++ hmacSha256 (key32.take 16) body

/-- `Fernet.encrypt` followed by `.decode()`: the url-safe base64 token as
an (ASCII) string. -/
def fernetEncryptToken (key32 : List Nat) (ts : Nat) (iv : List Nat)
    (msg : List Nat) : List Nat :=
  b64Encode (fernetTokenBytes key32 ts iv msg)

/-- `Fernet.decrypt` (without ttl, as in `decrypt_token`): base64-decode,
check the version byte, verify the HMAC, CBC-decrypt, unpad. `Except`
failure models a raised `InvalidToken`. -/
def fernetDecryptToken (key32 : List Nat) (token : List Nat) :
    Except Unit (List Nat) :=
  match b64Decode (utf8Encode token) with
  | none => .error ()
  | some data =>
      if data.getD 0 0 = 128 ∧ 57 ≤ data.length then
        let body := data.take (data.length - 32)
        let tag := data.drop (data.length - 32)
        if hmacSha256 (key32.take 16) body = tag then
          let iv := (data.drop 9).take 16
          let ct := (data.drop 25).take (data.length - 25 - 32)
          if ct.length % 16 = 0 then
            match pkcs7Unpad (statesToBytes
                (cbcDecryptStates (key32.drop 16) (listToState iv)
                  (bytesToStates ct))) with
            | some msg => .ok msg
            | none => .error ()
          else .error ()
        else .error ()
      else .error ()

/-- `encrypt_token` (app/infrastructure/encryption.py lines 59-82):
UTF-8-encode the plaintext and produce a Fernet token string; the
process-wide key, the clock and the random IV are explicit. -/
def encrypt_token (key32 : List Nat) (ts : Nat) (iv : List Nat)
    (plaintext : List Nat) : List Nat :=
  fernetEncryptToken key32 ts iv (utf8Encode plaintext)

/-- `decrypt_token` (app/infrastructure/encryption.py lines 85-111):
Fernet-decrypt the token string and UTF-8-decode the result; failures
model a raised `EncryptionError`. -/
def decrypt_token (key32 : List Nat) (ciphertext : List Nat) :
    Except Unit (List Nat) :=
  match fernetDecryptToken key32 ciphertext with
  | .ok bs =>
      match utf8Decode bs with
      | some s => .ok s
      | none => .error ()
  | .error _ => .error ()

/-! ## Theorems -/

/-! ### Model validation on standard test vectors -/

example : bytesToHex (sha256 (pystr "abc")) =
    pystr "ba7816bf8f01cfea414140de5dae2223b00361a396177a9cb410ff61f20015ad" := by
  decide

example : bytesToHex (sha256 []) =
    pystr "e3b0c44298fc1c149afbf4c8996fb92427ae41e4649b934ca495991b7852b855" := by
  decide

example : bytesToHex (hmacSha256 (pystr "s3cr3t")
      (pystr "v0:1700000000:\x7b\"a\":1\x7d")) =
    pystr "e9059c43cd474a569209c909bf322c65b8cb12b70b2ffea21dad45a992d0bb04" := by
  decide

/-! ### Byte-level facts about GF(2^8) and the S-boxes -/

/-- Xor of two bytes is a byte. -/
theorem xorLt {x y : Nat} (hx : x < 256) (hy : y < 256) : x ^^^ y < 256 := by
  have hdef : x ^^^ y = Nat.bitwise bne x y := rfl
  have hx8 : x < 2 ^ 8 := by omega
  have hy8 : y < 2 ^ 8 := by omega
  have h : Nat.bitwise bne x y < 2 ^ 8 := Nat.bitwise_lt hx8 hy8
  omega

/-- Left-commutativity of xor on `Nat` (for AC normalization). -/
theorem natXorLeftComm (a b c : Nat) : a ^^^ (b ^^^ c) = b ^^^ (a ^^^ c) := by
  rw [← Nat.xor_assoc, Nat.xor_comm a b, Nat.xor_assoc]

/-- A `getD` over a list of bytes with a byte default is a byte. -/
theorem getD_lt_of_all {l : List Nat} {i d : Nat}
    (hl : ∀ x ∈ l, x < 256) (hd : d < 256) : l.getD i d < 256 := by
  induction l generalizing i with
  | nil => simpa [List.getD] using hd
  | cons x xs ih =>
      cases i with
      | zero => simpa using hl x (by simp)
      | succ n =>
          simpa using ih (fun y hy => hl y (by simp [hy]))

/-- The S-box produces bytes. -/
theorem sboxAt_lt (b : Nat) : sboxAt b < 256 :=
  getD_lt_of_all (by decide) (by decide)

/-- The inverse S-box produces bytes. -/
theorem invSboxAt_lt (b : Nat) : invSboxAt b < 256 :=
  getD_lt_of_all (by decide) (by decide)

/-- Rcon bytes are bytes. -/
theorem rconByte_lt (j : Nat) : rconByte j < 256 :=
  getD_lt_of_all (by decide) (by decide)

/-- `xtime` maps bytes to bytes. -/
theorem xtime_lt : ∀ x < 256, xtime x < 256 := by decide

/-- Xor-cancellation on `Nat`. -/
theorem natXorCancelLeft (a b : Nat) : a ^^^ (a ^^^ b) = b := by
  rw [← Nat.xor_assoc, Nat.xor_self, Nat.zero_xor]

/-- Doubling distributes over xor (a one-bit left shift). -/
theorem two_mul_xor (a b : Nat) : 2 * (a ^^^ b) = 2 * a ^^^ 2 * b := by
  have h : ∀ n : Nat, 2 * n = n <<< 1 := fun n => by
    rw [Nat.shiftLeft_eq, pow_one, Nat.mul_comm]
  rw [h, h, h]
  apply Nat.eq_of_testBit_eq
  intro i
  simp [Nat.testBit_shiftLeft, Nat.testBit_xor, Bool.and_xor_distrib_left]

/-- Xor with the high bit of a byte is addition. -/
theorem highBit_xor_eq_add : ∀ a < 128, 128 ^^^ a = 128 + a := by decide

/-- `xtime` is additive over xor on bytes: case split on the high bits of
the two arguments, reducing each case to xor algebra. -/
theorem xtime_xor : ∀ x < 256, ∀ y < 256, xtime (x ^^^ y) = xtime x ^^^ xtime y := by
  intro x hx y hy
  rcases Nat.lt_or_ge x 128 with hxl | hxh <;> rcases Nat.lt_or_ge y 128 with hyl | hyh
  · have hxy : x ^^^ y < 128 :=
      Nat.xor_lt_two_pow (n := 7) (by omega) (by omega)
    unfold xtime
    rw [if_neg (by omega), if_neg (by omega), if_neg (by omega)]
    exact two_mul_xor x y
  · obtain ⟨y', hy'lt, rfl⟩ : ∃ y', y' < 128 ∧ y = 128 ^^^ y' :=
      ⟨y - 128, by omega, by rw [highBit_xor_eq_add _ (by omega)]; omega⟩
    have hlt : x ^^^ y' < 128 := Nat.xor_lt_two_pow (n := 7) (by omega) (by omega)
    have he : x ^^^ (128 ^^^ y') = 128 ^^^ (x ^^^ y') := natXorLeftComm x 128 y'
    have hge : 128 ≤ 128 ^^^ (x ^^^ y') := by
      rw [highBit_xor_eq_add _ hlt]; omega
    have hgy : 128 ≤ 128 ^^^ y' := by
      rw [highBit_xor_eq_add _ hy'lt]; omega
    rw [he]
    unfold xtime
    rw [if_pos hge, if_neg (by omega), if_pos hgy]
    simp only [two_mul_xor]
    simp [Nat.xor_assoc, Nat.xor_comm, natXorLeftComm, natXorCancelLeft,
      Nat.xor_self, Nat.xor_zero, Nat.zero_xor]
  · obtain ⟨x', hx'lt, rfl⟩ : ∃ x', x' < 128 ∧ x = 128 ^^^ x' :=
      ⟨x - 128, by omega, by rw [highBit_xor_eq_add _ (by omega)]; omega⟩
    have hlt : x' ^^^ y < 128 := Nat.xor_lt_two_pow (n := 7) (by omega) (by omega)
    have he : (128 ^^^ x') ^^^ y = 128 ^^^ (x' ^^^ y) := Nat.xor_assoc 128 x' y
    have hge : 128 ≤ 128 ^^^ (x' ^^^ y) := by
      rw [highBit_xor_eq_add _ hlt]; omega
    have hgx : 128 ≤ 128 ^^^ x' := by
      rw [highBit_xor_eq_add _ hx'lt]; omega
    rw [he]
    unfold xtime
    rw [if_pos hge, if_pos hgx, if_neg (by omega)]
    simp only [two_mul_xor]
    simp [Nat.xor_assoc, Nat.xor_comm, natXorLeftComm, natXorCancelLeft,
      Nat.xor_self, Nat.xor_zero, Nat.zero_xor]
  · obtain ⟨x', hx'lt, rfl⟩ : ∃ x', x' < 128 ∧ x = 128 ^^^ x' :=
      ⟨x - 128, by omega, by rw [highBit_xor_eq_add _ (by omega)]; omega⟩
    obtain ⟨y', hy'lt, rfl⟩ : ∃ y', y' < 128 ∧ y = 128 ^^^ y' :=
      ⟨y - 128, by omega, by rw [highBit_xor_eq_add _ (by omega)]; omega⟩
    have he : (128 ^^^ x') ^^^ (128 ^^^ y') = x' ^^^ y' := by
      rw [Nat.xor_assoc, natXorLeftComm x' 128 y', ← Nat.xor_assoc,
        Nat.xor_self, Nat.zero_xor]
    have hlt : x' ^^^ y' < 128 := Nat.xor_lt_two_pow (n := 7) (by omega) (by omega)
    have hgx : 128 ≤ 128 ^^^ x' := by
      rw [highBit_xor_eq_add _ hx'lt]; omega
    have hgy : 128 ≤ 128 ^^^ y' := by
      rw [highBit_xor_eq_add _ hy'lt]; omega
    rw [he]
    unfold xtime
    rw [if_neg (by omega), if_pos hgx, if_pos hgy]
    simp only [two_mul_xor]
    simp [Nat.xor_assoc, Nat.xor_comm, natXorLeftComm, natXorCancelLeft,
      Nat.xor_self, Nat.xor_zero, Nat.zero_xor]

/-- The inverse S-box inverts the S-box. -/
theorem invSbox_sbox : ∀ b < 256, invSboxAt (sboxAt b) = b := by decide

/-- MixColumns/InvMixColumns coefficient identity `14·2 ⊕ 11 ⊕ 13 ⊕ 9·3 = 1`. -/
theorem gfco1 : ∀ a < 256,
    gm14 (gm2 a) ^^^ (gm11 a ^^^ (gm13 a ^^^ gm9 (gm3 a))) = a := by decide

/-- Coefficient identity `14·3 ⊕ 11·2 ⊕ 13 ⊕ 9 = 0`. -/
theorem gfco2 : ∀ a < 256,
    gm14 (gm3 a) ^^^ (gm11 (gm2 a) ^^^ (gm13 a ^^^ gm9 a)) = 0 := by decide

/-- Coefficient identity `14 ⊕ 11·3 ⊕ 13·2 ⊕ 9 = 0`. -/
theorem gfco3 : ∀ a < 256,
    gm14 a ^^^ (gm11 (gm3 a) ^^^ (gm13 (gm2 a) ^^^ gm9 a)) = 0 := by decide

/-- Coefficient identity `14 ⊕ 11 ⊕ 13·3 ⊕ 9·2 = 0`. -/
theorem gfco4 : ∀ a < 256,
    gm14 a ^^^ (gm11 a ^^^ (gm13 (gm3 a) ^^^ gm9 (gm2 a))) = 0 := by decide

/-- `gm2` maps bytes to bytes. -/
theorem gm2_lt : ∀ x < 256, gm2 x < 256 := by decide

/-- `gm3` maps bytes to bytes. -/
theorem gm3_lt : ∀ x < 256, gm3 x < 256 := by decide

/-- `gm9` maps bytes to bytes. -/
theorem gm9_lt : ∀ x < 256, gm9 x < 256 := by decide

/-- `gm11` maps bytes to bytes. -/
theorem gm11_lt : ∀ x < 256, gm11 x < 256 := by decide

/-- `gm13` maps bytes to bytes. -/
theorem gm13_lt : ∀ x < 256, gm13 x < 256 := by decide

/-- `gm14` maps bytes to bytes. -/
theorem gm14_lt : ∀ x < 256, gm14 x < 256 := by decide

/-- `gm2` is additive over xor on bytes. -/
theorem gm2_xor (x y : Nat) (hx : x < 256) (hy : y < 256) :
    gm2 (x ^^^ y) = gm2 x ^^^ gm2 y := xtime_xor x hx y hy

/-- `gm3` is additive over xor on bytes. -/
theorem gm3_xor (x y : Nat) (hx : x < 256) (hy : y < 256) :
    gm3 (x ^^^ y) = gm3 x ^^^ gm3 y := by
  unfold gm3
  rw [xtime_xor x hx y hy]
  simp [Nat.xor_assoc, Nat.xor_comm, natXorLeftComm]

/-- `gm9` is additive over xor on bytes. -/
theorem gm9_xor (x y : Nat) (hx : x < 256) (hy : y < 256) :
    gm9 (x ^^^ y) = gm9 x ^^^ gm9 y := by
  unfold gm9
  rw [xtime_xor x hx y hy,
    xtime_xor _ (xtime_lt x hx) _ (xtime_lt y hy),
    xtime_xor _ (xtime_lt _ (xtime_lt x hx)) _ (xtime_lt _ (xtime_lt y hy))]
  simp [Nat.xor_assoc, Nat.xor_comm, natXorLeftComm]

/-- `gm11` is additive over xor on bytes. -/
theorem gm11_xor (x y : Nat) (hx : x < 256) (hy : y < 256) :
    gm11 (x ^^^ y) = gm11 x ^^^ gm11 y := by
  unfold gm11
  rw [xtime_xor x hx y hy,
    xtime_xor _ (xtime_lt x hx) _ (xtime_lt y hy),
    xtime_xor _ (xtime_lt _ (xtime_lt x hx)) _ (xtime_lt _ (xtime_lt y hy))]
  simp [Nat.xor_assoc, Nat.xor_comm, natXorLeftComm]

/-- `gm13` is additive over xor on bytes. -/
theorem gm13_xor (x y : Nat) (hx : x < 256) (hy : y < 256) :
    gm13 (x ^^^ y) = gm13 x ^^^ gm13 y := by
  unfold gm13
  rw [xtime_xor x hx y hy,
    xtime_xor _ (xtime_lt x hx) _ (xtime_lt y hy),
    xtime_xor _ (xtime_lt _ (xtime_lt x hx)) _ (xtime_lt _ (xtime_lt y hy))]
  simp [Nat.xor_assoc, Nat.xor_comm, natXorLeftComm]

/-- `gm14` is additive over xor on bytes. -/
theorem gm14_xor (x y : Nat) (hx : x < 256) (hy : y < 256) :
    gm14 (x ^^^ y) = gm14 x ^^^ gm14 y := by
  unfold gm14
  rw [xtime_xor x hx y hy,
    xtime_xor _ (xtime_lt x hx) _ (xtime_lt y hy),
    xtime_xor _ (xtime_lt _ (xtime_lt x hx)) _ (xtime_lt _ (xtime_lt y hy))]
  simp [Nat.xor_assoc, Nat.xor_comm, natXorLeftComm]

/-- Additivity of a linear byte map over a four-term xor. -/
theorem expand4 {g : Nat → Nat}
    (hlin : ∀ x y : Nat, x < 256 → y < 256 → g (x ^^^ y) = g x ^^^ g y)
    {p q r s : Nat} (hp : p < 256) (hq : q < 256) (hr : r < 256) (hs : s < 256) :
    g (p ^^^ q ^^^ r ^^^ s) = g p ^^^ g q ^^^ g r ^^^ g s := by
  rw [hlin _ s (xorLt (xorLt hp hq) hr) hs,
    hlin _ r (xorLt hp hq) hr,
    hlin _ q hp hq]

/-! ### Inversion of the AES round operations -/

/-- Row 0 of InvMixColumns inverts MixColumns. -/
theorem imc_mc_0 (a b c d : Nat) (ha : a < 256) (hb : b < 256)
    (hc : c < 256) (hd : d < 256) :
    imc0 (mc0 a b c d) (mc1 a b c d) (mc2 a b c d) (mc3 a b c d) = a := by
  unfold imc0 mc0 mc1 mc2 mc3
  rw [expand4 gm14_xor (gm2_lt a ha) (gm3_lt b hb) hc hd,
    expand4 gm11_xor ha (gm2_lt b hb) (gm3_lt c hc) hd,
    expand4 gm13_xor ha hb (gm2_lt c hc) (gm3_lt d hd),
    expand4 gm9_xor (gm3_lt a ha) hb hc (gm2_lt d hd)]
  refine Eq.trans ?_
    (show (gm14 (gm2 a) ^^^ (gm11 a ^^^ (gm13 a ^^^ gm9 (gm3 a)))) ^^^
       ((gm14 (gm3 b) ^^^ (gm11 (gm2 b) ^^^ (gm13 b ^^^ gm9 b))) ^^^
        ((gm14 c ^^^ (gm11 (gm3 c) ^^^ (gm13 (gm2 c) ^^^ gm9 c))) ^^^
         (gm14 d ^^^ (gm11 d ^^^ (gm13 (gm3 d) ^^^ gm9 (gm2 d)))))) = a by
      rw [gfco1 a ha, gfco2 b hb, gfco3 c hc, gfco4 d hd]; simp)
  simp [Nat.xor_assoc, Nat.xor_comm, natXorLeftComm]

/-- Row 1 of InvMixColumns inverts MixColumns. -/
theorem imc_mc_1 (a b c d : Nat) (ha : a < 256) (hb : b < 256)
    (hc : c < 256) (hd : d < 256) :
    imc1 (mc0 a b c d) (mc1 a b c d) (mc2 a b c d) (mc3 a b c d) = b := by
  unfold imc1 mc0 mc1 mc2 mc3
  rw [expand4 gm9_xor (gm2_lt a ha) (gm3_lt b hb) hc hd,
    expand4 gm14_xor ha (gm2_lt b hb) (gm3_lt c hc) hd,
    expand4 gm11_xor ha hb (gm2_lt c hc) (gm3_lt d hd),
    expand4 gm13_xor (gm3_lt a ha) hb hc (gm2_lt d hd)]
  refine Eq.trans ?_
    (show (gm14 (gm2 b) ^^^ (gm11 b ^^^ (gm13 b ^^^ gm9 (gm3 b)))) ^^^
       ((gm14 (gm3 c) ^^^ (gm11 (gm2 c) ^^^ (gm13 c ^^^ gm9 c))) ^^^
        ((gm14 d ^^^ (gm11 (gm3 d) ^^^ (gm13 (gm2 d) ^^^ gm9 d))) ^^^
         (gm14 a ^^^ (gm11 a ^^^ (gm13 (gm3 a) ^^^ gm9 (gm2 a)))))) = b by
      rw [gfco1 b hb, gfco2 c hc, gfco3 d hd, gfco4 a ha]; simp)
  simp [Nat.xor_assoc, Nat.xor_comm, natXorLeftComm]

/-- Row 2 of InvMixColumns inverts MixColumns. -/
theorem imc_mc_2 (a b c d : Nat) (ha : a < 256) (hb : b < 256)
    (hc : c < 256) (hd : d < 256) :
    imc2 (mc0 a b c d) (mc1 a b c d) (mc2 a b c d) (mc3 a b c d) = c := by
  unfold imc2 mc0 mc1 mc2 mc3
  rw [expand4 gm13_xor (gm2_lt a ha) (gm3_lt b hb) hc hd,
    expand4 gm9_xor ha (gm2_lt b hb) (gm3_lt c hc) hd,
    expand4 gm14_xor ha hb (gm2_lt c hc) (gm3_lt d hd),
    expand4 gm11_xor (gm3_lt a ha) hb hc (gm2_lt d hd)]
  refine Eq.trans ?_
    (show (gm14 (gm2 c) ^^^ (gm11 c ^^^ (gm13 c ^^^ gm9 (gm3 c)))) ^^^
       ((gm14 (gm3 d) ^^^ (gm11 (gm2 d) ^^^ (gm13 d ^^^ gm9 d))) ^^^
        ((gm14 a ^^^ (gm11 (gm3 a) ^^^ (gm13 (gm2 a) ^^^ gm9 a))) ^^^
         (gm14 b ^^^ (gm11 b ^^^ (gm13 (gm3 b) ^^^ gm9 (gm2 b)))))) = c by
      rw [gfco1 c hc, gfco2 d hd, gfco3 a ha, gfco4 b hb]; simp)
  simp [Nat.xor_assoc, Nat.xor_comm, natXorLeftComm]

/-- Row 3 of InvMixColumns inverts MixColumns. -/
theorem imc_mc_3 (a b c d : Nat) (ha : a < 256) (hb : b < 256)
    (hc : c < 256) (hd : d < 256) :
    imc3 (mc0 a b c d) (mc1 a b c d) (mc2 a b c d) (mc3 a b c d) = d := by
  unfold imc3 mc0 mc1 mc2 mc3
  rw [expand4 gm11_xor (gm2_lt a ha) (gm3_lt b hb) hc hd,
    expand4 gm13_xor ha (gm2_lt b hb) (gm3_lt c hc) hd,
    expand4 gm9_xor ha hb (gm2_lt c hc) (gm3_lt d hd),
    expand4 gm14_xor (gm3_lt a ha) hb hc (gm2_lt d hd)]
  refine Eq.trans ?_
    (show (gm14 (gm2 d) ^^^ (gm11 d ^^^ (gm13 d ^^^ gm9 (gm3 d)))) ^^^
       ((gm14 (gm3 a) ^^^ (gm11 (gm2 a) ^^^ (gm13 a ^^^ gm9 a))) ^^^
        ((gm14 b ^^^ (gm11 (gm3 b) ^^^ (gm13 (gm2 b) ^^^ gm9 b))) ^^^
         (gm14 c ^^^ (gm11 c ^^^ (gm13 (gm3 c) ^^^ gm9 (gm2 c)))))) = d by
      rw [gfco1 d hd, gfco2 a ha, gfco3 b hb, gfco4 c hc]; simp)
  simp [Nat.xor_assoc, Nat.xor_comm, natXorLeftComm]

/-- InvMixColumns inverts MixColumns on byte-valued states. -/
theorem invMix_mix (st : AESState) (h : StateLT st) :
    invMixColumns (mixColumns st) = st := by
  cases st
  obtain ⟨h0, h1, h2, h3, h4, h5, h6, h7, h8, h9, h10, h11, h12, h13, h14, h15⟩ := h
  simp only [mixColumns, invMixColumns, AESState.mk.injEq]
  exact ⟨imc_mc_0 _ _ _ _ h0 h1 h2 h3, imc_mc_1 _ _ _ _ h0 h1 h2 h3,
    imc_mc_2 _ _ _ _ h0 h1 h2 h3, imc_mc_3 _ _ _ _ h0 h1 h2 h3,
    imc_mc_0 _ _ _ _ h4 h5 h6 h7, imc_mc_1 _ _ _ _ h4 h5 h6 h7,
    imc_mc_2 _ _ _ _ h4 h5 h6 h7, imc_mc_3 _ _ _ _ h4 h5 h6 h7,
    imc_mc_0 _ _ _ _ h8 h9 h10 h11, imc_mc_1 _ _ _ _ h8 h9 h10 h11,
    imc_mc_2 _ _ _ _ h8 h9 h10 h11, imc_mc_3 _ _ _ _ h8 h9 h10 h11,
    imc_mc_0 _ _ _ _ h12 h13 h14 h15, imc_mc_1 _ _ _ _ h12 h13 h14 h15,
    imc_mc_2 _ _ _ _ h12 h13 h14 h15, imc_mc_3 _ _ _ _ h12 h13 h14 h15⟩

/-- InvSubBytes inverts SubBytes on byte-valued states. -/
theorem invSub_sub (st : AESState) (h : StateLT st) :
    invSubBytes (subBytes st) = st := by
  cases st
  obtain ⟨h0, h1, h2, h3, h4, h5, h6, h7, h8, h9, h10, h11, h12, h13, h14, h15⟩ := h
  simp only [subBytes, invSubBytes, AESState.mk.injEq]
  exact ⟨invSbox_sbox _ h0, invSbox_sbox _ h1, invSbox_sbox _ h2,
    invSbox_sbox _ h3, invSbox_sbox _ h4, invSbox_sbox _ h5, invSbox_sbox _ h6,
    invSbox_sbox _ h7, invSbox_sbox _ h8, invSbox_sbox _ h9, invSbox_sbox _ h10,
    invSbox_sbox _ h11, invSbox_sbox _ h12, invSbox_sbox _ h13,
    invSbox_sbox _ h14, invSbox_sbox _ h15⟩

/-- InvShiftRows inverts ShiftRows. -/
theorem invShift_shift (st : AESState) : invShiftRows (shiftRows st) = st := by
  cases st
  rfl

/-- AddRoundKey is an involution. -/
theorem ark_ark (k st : AESState) : addRoundKey k (addRoundKey k st) = st := by
  cases k
  cases st
  simp [addRoundKey, Nat.xor_cancel_right]

/-! ### Boundedness of the round operations -/

/-- SubBytes always produces a byte-valued state. -/
theorem subBytes_stateLT (st : AESState) : StateLT (subBytes st) :=
  ⟨sboxAt_lt _, sboxAt_lt _, sboxAt_lt _, sboxAt_lt _, sboxAt_lt _,
   sboxAt_lt _, sboxAt_lt _, sboxAt_lt _, sboxAt_lt _, sboxAt_lt _,
   sboxAt_lt _, sboxAt_lt _, sboxAt_lt _, sboxAt_lt _, sboxAt_lt _,
   sboxAt_lt _⟩

/-- ShiftRows preserves byte-valued states. -/
theorem shiftRows_stateLT {st : AESState} (h : StateLT st) :
    StateLT (shiftRows st) := by
  obtain ⟨h0, h1, h2, h3, h4, h5, h6, h7, h8, h9, h10, h11, h12, h13, h14, h15⟩ := h
  exact ⟨h0, h5, h10, h15, h4, h9, h14, h3, h8, h13, h2, h7, h12, h1, h6, h11⟩

/-- MixColumns row 0 produces a byte. -/
theorem mc0_lt {a b c d : Nat} (ha : a < 256) (hb : b < 256) (hc : c < 256)
    (hd : d < 256) : mc0 a b c d < 256 :=
  xorLt (xorLt (xorLt (gm2_lt a ha) (gm3_lt b hb)) hc) hd

/-- MixColumns row 1 produces a byte. -/
theorem mc1_lt {a b c d : Nat} (ha : a < 256) (hb : b < 256) (hc : c < 256)
    (hd : d < 256) : mc1 a b c d < 256 :=
  xorLt (xorLt (xorLt ha (gm2_lt b hb)) (gm3_lt c hc)) hd

/-- MixColumns row 2 produces a byte. -/
theorem mc2_lt {a b c d : Nat} (ha : a < 256) (hb : b < 256) (hc : c < 256)
    (hd : d < 256) : mc2 a b c d < 256 :=
  xorLt (xorLt (xorLt ha hb) (gm2_lt c hc)) (gm3_lt d hd)

/-- MixColumns row 3 produces a byte. -/
theorem mc3_lt {a b c d : Nat} (ha : a < 256) (hb : b < 256) (hc : c < 256)
    (hd : d < 256) : mc3 a b c d < 256 :=
  xorLt (xorLt (xorLt (gm3_lt a ha) hb) hc) (gm2_lt d hd)

/-- MixColumns preserves byte-valued states. -/
theorem mixColumns_stateLT {st : AESState} (h : StateLT st) :
    StateLT (mixColumns st) := by
  obtain ⟨h0, h1, h2, h3, h4, h5, h6, h7, h8, h9, h10, h11, h12, h13, h14, h15⟩ := h
  exact ⟨mc0_lt h0 h1 h2 h3, mc1_lt h0 h1 h2 h3, mc2_lt h0 h1 h2 h3,
    mc3_lt h0 h1 h2 h3, mc0_lt h4 h5 h6 h7, mc1_lt h4 h5 h6 h7,
    mc2_lt h4 h5 h6 h7, mc3_lt h4 h5 h6 h7, mc0_lt h8 h9 h10 h11,
    mc1_lt h8 h9 h10 h11, mc2_lt h8 h9 h10 h11, mc3_lt h8 h9 h10 h11,
    mc0_lt h12 h13 h14 h15, mc1_lt h12 h13 h14 h15, mc2_lt h12 h13 h14 h15,
    mc3_lt h12 h13 h14 h15⟩

/-- AddRoundKey preserves byte-valued states. -/
theorem ark_stateLT {k st : AESState} (hk : StateLT k) (hst : StateLT st) :
    StateLT (addRoundKey k st) := by
  obtain ⟨k0, k1, k2, k3, k4, k5, k6, k7, k8, k9, k10, k11, k12, k13, k14, k15⟩ := hk
  obtain ⟨h0, h1, h2, h3, h4, h5, h6, h7, h8, h9, h10, h11, h12, h13, h14, h15⟩ := hst
  exact ⟨xorLt h0 k0, xorLt h1 k1, xorLt h2 k2, xorLt h3 k3, xorLt h4 k4,
    xorLt h5 k5, xorLt h6 k6, xorLt h7 k7, xorLt h8 k8, xorLt h9 k9,
    xorLt h10 k10, xorLt h11 k11, xorLt h12 k12, xorLt h13 k13,
    xorLt h14 k14, xorLt h15 k15⟩

/-- The middle encryption rounds preserve byte-valued states. -/
theorem encRounds_stateLT : ∀ (mids : List AESState) (st : AESState),
    (∀ k ∈ mids, StateLT k) → StateLT st → StateLT (aesEncryptRounds mids st) := by
  intro mids
  induction mids with
  | nil => intro st _ h; exact h
  | cons k rest ih =>
      intro st hk hst
      exact ih _ (fun k' h' => hk k' (by simp [h']))
        (ark_stateLT (hk k (by simp))
          (mixColumns_stateLT (shiftRows_stateLT (subBytes_stateLT st))))

/-! ### Block-level inversion -/

/-- Peeling one reversed round key off the decryption rounds. -/
theorem decRounds_append (l : List AESState) (k y : AESState) :
    aesDecryptRounds (l ++ [k]) y =
      invSubBytes (invShiftRows (invMixColumns (addRoundKey k
        (aesDecryptRounds l y)))) := by
  induction l generalizing y with
  | nil => rfl
  | cons k' rest ih => simp [aesDecryptRounds, ih]

/-- The reversed decryption rounds invert the encryption rounds. -/
theorem decRounds_encRounds : ∀ (mids : List AESState) (st : AESState),
    (∀ k ∈ mids, StateLT k) → StateLT st →
    aesDecryptRounds mids.reverse (aesEncryptRounds mids st) = st := by
  intro mids
  induction mids with
  | nil => intro st _ _; rfl
  | cons k rest ih =>
      intro st hk hst
      have hkk : StateLT k := hk k (by simp)
      have hrest : ∀ k' ∈ rest, StateLT k' := fun k' h' => hk k' (by simp [h'])
      have hX : StateLT (addRoundKey k (mixColumns (shiftRows (subBytes st)))) :=
        ark_stateLT hkk (mixColumns_stateLT (shiftRows_stateLT (subBytes_stateLT st)))
      show aesDecryptRounds (k :: rest).reverse
        (aesEncryptRounds rest (addRoundKey k (mixColumns (shiftRows (subBytes st))))) = st
      rw [List.reverse_cons, decRounds_append, ih _ hrest hX, ark_ark,
        invMix_mix _ (shiftRows_stateLT (subBytes_stateLT st)),
        invShift_shift, invSub_sub _ hst]

/-- AES-128 block decryption inverts encryption for byte-valued states and
byte-valued round keys. -/
theorem aesDecrypt_aesEncrypt (k0 klast st : AESState) (mids : List AESState)
    (hk0 : StateLT k0) (hmids : ∀ k ∈ mids, StateLT k) (hst : StateLT st) :
    aesDecryptCore k0 mids klast (aesEncryptCore k0 mids klast st) = st := by
  unfold aesEncryptCore aesDecryptCore
  rw [ark_ark, invShift_shift,
    invSub_sub _ (encRounds_stateLT mids _ hmids (ark_stateLT hk0 hst)),
    decRounds_encRounds mids _ hmids (ark_stateLT hk0 hst), ark_ark]

/-! ### AES state/byte conversions and the key schedule -/

/-- `bytesToStates` inverts `statesToBytes`. -/
theorem bytesToStates_statesToBytes (l : List AESState) :
    bytesToStates (statesToBytes l) = l := by
  induction l with
  | nil => rfl
  | cons st rest ih =>
      cases st
      simp [statesToBytes, stateToList, bytesToStates, ih]

/-- Length of the serialized blocks. -/
theorem statesToBytes_length (l : List AESState) :
    (statesToBytes l).length = 16 * l.length := by
  induction l with
  | nil => rfl
  | cons st rest ih =>
      simp only [statesToBytes, stateToList, List.length_append, ih,
        List.length_cons, List.length_nil]
      omega

/-- `statesToBytes` inverts `bytesToStates` on 16-multiples. -/
theorem statesToBytes_bytesToStates : ∀ (bs : List Nat),
    bs.length % 16 = 0 → statesToBytes (bytesToStates bs) = bs
  | [], _ => rfl
  | b0 :: b1 :: b2 :: b3 :: b4 :: b5 :: b6 :: b7 ::
    b8 :: b9 :: b10 :: b11 :: b12 :: b13 :: b14 :: b15 :: rest, h => by
      have ih := statesToBytes_bytesToStates rest
        (by simp only [List.length_cons] at h; omega)
      simp [bytesToStates, statesToBytes, stateToList, ih]
  | [_], h => by simp at h
  | [_, _], h => by simp at h
  | [_, _, _], h => by simp at h
  | [_, _, _, _], h => by simp at h
  | [_, _, _, _, _], h => by simp at h
  | [_, _, _, _, _, _], h => by simp at h
  | [_, _, _, _, _, _, _], h => by simp at h
  | [_, _, _, _, _, _, _, _], h => by simp at h
  | [_, _, _, _, _, _, _, _, _], h => by simp at h
  | [_, _, _, _, _, _, _, _, _, _], h => by simp at h
  | [_, _, _, _, _, _, _, _, _, _, _], h => by simp at h
  | [_, _, _, _, _, _, _, _, _, _, _, _], h => by simp at h
  | [_, _, _, _, _, _, _, _, _, _, _, _, _], h => by simp at h
  | [_, _, _, _, _, _, _, _, _, _, _, _, _, _], h => by simp at h
  | [_, _, _, _, _, _, _, _, _, _, _, _, _, _, _], h => by simp at h

/-- Blocks built from bytes are byte-valued. -/
theorem bytesToStates_stateLT : ∀ (bs : List Nat), ListLT bs →
    ∀ st ∈ bytesToStates bs, StateLT st
  | b0 :: b1 :: b2 :: b3 :: b4 :: b5 :: b6 :: b7 ::
    b8 :: b9 :: b10 :: b11 :: b12 :: b13 :: b14 :: b15 :: rest, h, st, hst => by
      have hrest : ListLT rest := fun b hb => h b (by simp [hb])
      simp only [bytesToStates, List.mem_cons] at hst
      rcases hst with rfl | hst
      · exact ⟨h b0 (by simp), h b1 (by simp), h b2 (by simp), h b3 (by simp),
          h b4 (by simp), h b5 (by simp), h b6 (by simp), h b7 (by simp),
          h b8 (by simp), h b9 (by simp), h b10 (by simp), h b11 (by simp),
          h b12 (by simp), h b13 (by simp), h b14 (by simp), h b15 (by simp)⟩
      · exact bytesToStates_stateLT rest hrest st hst
  | [], _, st, hst => by cases hst
  | [_], _, st, hst => by cases hst
  | [_, _], _, st, hst => by cases hst
  | [_, _, _], _, st, hst => by cases hst
  | [_, _, _, _], _, st, hst => by cases hst
  | [_, _, _, _, _], _, st, hst => by cases hst
  | [_, _, _, _, _, _], _, st, hst => by cases hst
  | [_, _, _, _, _, _, _], _, st, hst => by cases hst
  | [_, _, _, _, _, _, _, _], _, st, hst => by cases hst
  | [_, _, _, _, _, _, _, _, _], _, st, hst => by cases hst
  | [_, _, _, _, _, _, _, _, _, _], _, st, hst => by cases hst
  | [_, _, _, _, _, _, _, _, _, _, _], _, st, hst => by cases hst
  | [_, _, _, _, _, _, _, _, _, _, _, _], _, st, hst => by cases hst
  | [_, _, _, _, _, _, _, _, _, _, _, _, _], _, st, hst => by cases hst
  | [_, _, _, _, _, _, _, _, _, _, _, _, _, _], _, st, hst => by cases hst
  | [_, _, _, _, _, _, _, _, _, _, _, _, _, _, _], _, st, hst => by cases hst

/-- Serialized byte-valued blocks are bytes. -/
theorem statesToBytes_listLT (l : List AESState)
    (h : ∀ st ∈ l, StateLT st) : ListLT (statesToBytes l) := by
  induction l with
  | nil => intro b hb; cases hb
  | cons st rest ih =>
      intro b hb
      simp only [statesToBytes, List.mem_append] at hb
      rcases hb with hb | hb
      · obtain ⟨h0, h1, h2, h3, h4, h5, h6, h7,
          h8, h9, h10, h11, h12, h13, h14, h15⟩ := h st (by simp)
        simp only [stateToList, List.mem_cons] at hb
        rcases hb with rfl | rfl | rfl | rfl | rfl | rfl | rfl | rfl | rfl |
          rfl | rfl | rfl | rfl | rfl | rfl | rfl | hb
        all_goals first | assumption | cases hb
      · exact ih (fun st' h' => h st' (by simp [h'])) b hb

/-- A 16-byte list makes a byte-valued state. -/
theorem listToState_stateLT (l : List Nat) (h : ListLT l) :
    StateLT (listToState l) := by
  unfold listToState
  split
  · next b0 b1 b2 b3 b4 b5 b6 b7 b8 b9 b10 b11 b12 b13 b14 b15 =>
      exact ⟨h b0 (by simp), h b1 (by simp), h b2 (by simp), h b3 (by simp),
        h b4 (by simp), h b5 (by simp), h b6 (by simp), h b7 (by simp),
        h b8 (by simp), h b9 (by simp), h b10 (by simp), h b11 (by simp),
        h b12 (by simp), h b13 (by simp), h b14 (by simp), h b15 (by simp)⟩
  · decide

/-- Xor of two byte lists is a byte list. -/
theorem zipXor_listLT {a b : List Nat} (ha : ListLT a) (hb : ListLT b) :
    ListLT (zipXor a b) := by
  induction a generalizing b with
  | nil => intro x hx; cases hx
  | cons x xs ih =>
      cases b with
      | nil => intro y hy; cases hy
      | cons y ys =>
          intro z hz
          simp only [zipXor, List.zipWith_cons_cons, List.mem_cons] at hz
          rcases hz with rfl | hz
          · exact xorLt (ha x (by simp)) (hb y (by simp))
          · exact ih (fun u hu => ha u (by simp [hu]))
              (fun u hu => hb u (by simp [hu])) z hz

/-- SubWord always produces bytes. -/
theorem subWord_listLT (w : List Nat) : ListLT (subWord w) := by
  intro b hb
  simp only [subWord, List.mem_map] at hb
  obtain ⟨x, -, rfl⟩ := hb
  exact sboxAt_lt x

/-- RotWord preserves byte lists. -/
theorem rotWord_listLT {w : List Nat} (h : ListLT w) : ListLT (rotWord w) := by
  unfold rotWord
  split
  · next a b c d =>
      intro x hx
      simp only [List.mem_cons] at hx
      rcases hx with rfl | rfl | rfl | rfl | hx
      · exact h x (by simp)
      · exact h x (by simp)
      · exact h x (by simp)
      · exact h x (by simp)
      · cases hx
  · exact h

/-- A word fetched with `getD` out of a byte-word table is a byte list. -/
theorem getD_word_listLT {ws : List (List Nat)} {i : Nat}
    (h : ∀ w ∈ ws, ListLT w) : ListLT (ws.getD i []) := by
  induction ws generalizing i with
  | nil => intro b hb; simp [List.getD] at hb
  | cons w rest ih =>
      cases i with
      | zero => simpa using h w (by simp)
      | succ n => simpa using ih (fun w' h' => h w' (by simp [h'])) (i := n)

/-- Every word of the key expansion is a byte list. -/
theorem keyExpandAux_listLT : ∀ (n : Nat) (ws : List (List Nat)),
    (∀ w ∈ ws, ListLT w) → ∀ w ∈ keyExpandAux n ws, ListLT w
  | 0, ws, h => h
  | n + 1, ws, h => by
      apply keyExpandAux_listLT n
      intro w hw
      simp only [List.mem_append, List.mem_singleton] at hw
      rcases hw with hw | rfl
      · exact h w hw
      · apply zipXor_listLT (getD_word_listLT h)
        split
        · exact zipXor_listLT (subWord_listLT _)
            (by intro b hb; simp only [List.mem_cons] at hb
                rcases hb with rfl | rfl | rfl | rfl | hb
                · exact rconByte_lt _
                · omega
                · omega
                · omega
                · cases hb)
        · exact getD_word_listLT h

/-- The four words of a 16-byte key are byte lists. -/
theorem chunks4_listLT : ∀ (key : List Nat), ListLT key →
    ∀ w ∈ chunks4 key, ListLT w
  | b1 :: b2 :: b3 :: b4 :: rest, h, w, hw => by
      simp only [chunks4, List.mem_cons] at hw
      rcases hw with rfl | hw
      · intro b hb
        simp only [List.mem_cons] at hb
        rcases hb with rfl | rfl | rfl | rfl | hb
        · exact h b (by simp)
        · exact h b (by simp)
        · exact h b (by simp)
        · exact h b (by simp)
        · cases hb
      · exact chunks4_listLT rest (fun b hb => h b (by simp [hb])) w hw
  | [], _, w, hw => by cases hw
  | [_], _, w, hw => by cases hw
  | [_, _], _, w, hw => by cases hw
  | [_, _, _], _, w, hw => by cases hw

/-- Every round key of the schedule is byte-valued. -/
theorem keySchedule_stateLT (key : List Nat) (h : ListLT key) :
    ∀ st ∈ keySchedule key, StateLT st := by
  apply bytesToStates_stateLT
  intro b hb
  simp only [List.mem_flatMap, id] at hb
  obtain ⟨w, hw, hbw⟩ := hb
  exact keyExpandAux_listLT 40 (chunks4 key) (chunks4_listLT key h) w hw b hbw

/-- `getLastD` is the default or a member. -/
theorem getLastD_eq_or_mem {α : Type} : ∀ (l : List α) (d : α),
    l.getLastD d = d ∨ l.getLastD d ∈ l
  | [], _ => Or.inl rfl
  | [a], _ => Or.inr (by show a ∈ [a]; simp)
  | a :: b :: t, d => by
      rcases getLastD_eq_or_mem (b :: t) d with h | h
      · left; exact h
      · right; exact List.mem_cons_of_mem _ h

/-- Block encryption preserves byte-valued states for byte-valued keys. -/
theorem aesEncryptBlock_stateLT {key : List Nat} {st : AESState}
    (hkey : ListLT key) (hst : StateLT st) : StateLT (aesEncryptBlock key st) := by
  have hb := keySchedule_stateLT key hkey
  cases hks : keySchedule key with
  | nil => unfold aesEncryptBlock; rw [hks]; exact hst
  | cons k0 rest =>
      have hklast : StateLT (rest.getLastD k0) := by
        rcases getLastD_eq_or_mem rest k0 with h | h
        · rw [h]; exact hb k0 (by rw [hks]; exact List.mem_cons_self _ _)
        · exact hb _ (by rw [hks]; exact List.mem_cons_of_mem _ h)
      unfold aesEncryptBlock
      rw [hks]
      exact ark_stateLT hklast
        (shiftRows_stateLT (subBytes_stateLT _))

/-- Block decryption inverts block encryption for byte-valued keys and
states. -/
theorem aesDecryptBlock_encryptBlock {key : List Nat} {st : AESState}
    (hkey : ListLT key) (hst : StateLT st) :
    aesDecryptBlock key (aesEncryptBlock key st) = st := by
  have hb := keySchedule_stateLT key hkey
  cases hks : keySchedule key with
  | nil => unfold aesEncryptBlock aesDecryptBlock; rw [hks]
  | cons k0 rest =>
      have hk0 : StateLT k0 := hb k0 (by rw [hks]; exact List.mem_cons_self _ _)
      have hmids : ∀ k ∈ rest.dropLast, StateLT k := by
        intro k hk
        refine hb k ?_
        rw [hks]
        exact List.mem_cons_of_mem _ (List.dropLast_subset _ hk)
      unfold aesEncryptBlock aesDecryptBlock
      rw [hks]
      exact aesDecrypt_aesEncrypt k0 (rest.getLastD k0) st rest.dropLast
        hk0 hmids hst

/-- CBC ciphertext blocks are byte-valued. -/
theorem cbcEncryptStates_stateLT {key : List Nat} (hkey : ListLT key) :
    ∀ (ps : List AESState) (prev : AESState), StateLT prev →
      (∀ p ∈ ps, StateLT p) →
      ∀ c ∈ cbcEncryptStates key prev ps, StateLT c
  | [], _, _, _, _, hc => by cases hc
  | p :: rest, prev, hprev, hps, c, hc => by
      have hp : StateLT p := hps p (List.mem_cons_self _ _)
      have hcblk : StateLT (aesEncryptBlock key (addRoundKey prev p)) :=
        aesEncryptBlock_stateLT hkey (ark_stateLT hprev hp)
      rw [cbcEncryptStates] at hc
      cases List.mem_cons.mp hc with
      | inl h => rw [h]; exact hcblk
      | inr h =>
          exact cbcEncryptStates_stateLT hkey rest _ hcblk
            (fun p' h' => hps p' (List.mem_cons_of_mem _ h')) c h

/-- CBC decryption inverts CBC encryption. -/
theorem cbcDecrypt_cbcEncrypt {key : List Nat} (hkey : ListLT key) :
    ∀ (ps : List AESState) (prev : AESState), StateLT prev →
      (∀ p ∈ ps, StateLT p) →
      cbcDecryptStates key prev (cbcEncryptStates key prev ps) = ps
  | [], _, _, _ => rfl
  | p :: rest, prev, hprev, hps => by
      have hp : StateLT p := hps p (List.mem_cons_self _ _)
      rw [cbcEncryptStates, cbcDecryptStates,
        aesDecryptBlock_encryptBlock hkey (ark_stateLT hprev hp), ark_ark,
        cbcDecrypt_cbcEncrypt hkey rest _
          (aesEncryptBlock_stateLT hkey (ark_stateLT hprev hp))
          (fun p' h' => hps p' (List.mem_cons_of_mem _ h'))]

/-! ### PKCS#7, SHA-256 lengths and the timestamp field -/

/-- Taking exactly the left part of an append. -/
theorem take_len_append {α : Type} (l₁ l₂ : List α) :
    (l₁ ++ l₂).take l₁.length = l₁ := by
  induction l₁ with
  | nil => rfl
  | cons a t ih => simp [ih]

/-- Dropping exactly the left part of an append. -/
theorem drop_len_append {α : Type} (l₁ l₂ : List α) :
    (l₁ ++ l₂).drop l₁.length = l₂ := by
  induction l₁ with
  | nil => rfl
  | cons a t ih => simp [ih]

/-- Last element of a non-empty replicate. -/
theorem getLast?_replicate_pos (n : Nat) (a : Nat) (h : 0 < n) :
    (List.replicate n a).getLast? = some a := by
  induction n with
  | zero => omega
  | succ m ih =>
      cases m with
      | zero => rfl
      | succ k =>
          rw [List.replicate_succ, List.replicate_succ,
            List.getLast?_cons_cons, ← List.replicate_succ]
          exact ih (by omega)

/-- Padded length. -/
theorem pkcs7Pad_length (bs : List Nat) :
    (pkcs7Pad bs).length = bs.length + (16 - bs.length % 16) := by
  simp [pkcs7Pad]

/-- Padding reaches a multiple of 16. -/
theorem pkcs7Pad_mod (bs : List Nat) : (pkcs7Pad bs).length % 16 = 0 := by
  rw [pkcs7Pad_length]
  omega

/-- Padding preserves byte lists. -/
theorem pkcs7Pad_listLT {bs : List Nat} (h : ListLT bs) :
    ListLT (pkcs7Pad bs) := by
  intro b hb
  simp only [pkcs7Pad, List.mem_append, List.mem_replicate] at hb
  rcases hb with hb | ⟨-, rfl⟩
  · exact h b hb
  · omega

/-- Unpadding inverts padding. -/
theorem pkcs7Unpad_pad (bs : List Nat) : pkcs7Unpad (pkcs7Pad bs) = some bs := by
  have hp1 : 0 < 16 - bs.length % 16 := by omega
  have hlast : (pkcs7Pad bs).getLast? = some (16 - bs.length % 16) := by
    unfold pkcs7Pad
    rw [List.getLast?_append_of_ne_nil _ (by
        intro hnil
        have := congrArg List.length hnil
        simp at this
        omega)]
    exact getLast?_replicate_pos _ _ hp1
  unfold pkcs7Unpad
  simp only [hlast]
  have hlen : (pkcs7Pad bs).length = bs.length + (16 - bs.length % 16) :=
    pkcs7Pad_length bs
  have hdrop : (pkcs7Pad bs).drop
      ((pkcs7Pad bs).length - (16 - bs.length % 16)) =
      List.replicate (16 - bs.length % 16) (16 - bs.length % 16) := by
    unfold pkcs7Pad
    have : (bs ++ List.replicate (16 - bs.length % 16) (16 - bs.length % 16)).length
        - (16 - bs.length % 16) = bs.length := by simp
    rw [pkcs7Pad] at hlen
    rw [show (bs ++ List.replicate (16 - bs.length % 16)
        (16 - bs.length % 16)).length - (16 - bs.length % 16) = bs.length by simp]
    exact drop_len_append bs _
  have htake : (pkcs7Pad bs).take
      ((pkcs7Pad bs).length - (16 - bs.length % 16)) = bs := by
    unfold pkcs7Pad
    rw [show (bs ++ List.replicate (16 - bs.length % 16)
        (16 - bs.length % 16)).length - (16 - bs.length % 16) = bs.length by simp]
    exact take_len_append bs _
  rw [if_pos ?_, htake]
  refine ⟨by omega, by omega, by rw [hlen]; omega, ?_⟩
  rw [hdrop]
  simp

/-- One SHA-256 round preserves the 8-word state length. -/
theorem sha256Round_length (st : List Nat) (kw : Nat) (h : st.length = 8) :
    (sha256Round st kw).length = 8 := by
  unfold sha256Round
  split
  · rfl
  · exact h

/-- The compression fold preserves the 8-word state length. -/
theorem sha256Fold_length (l : List (Nat × Nat)) : ∀ (st : List Nat),
    st.length = 8 →
    (l.foldl (fun s kw => sha256Round s (w32 (kw.1 + kw.2))) st).length = 8 := by
  induction l with
  | nil => intro st h; exact h
  | cons a t ih => intro st h; exact ih _ (sha256Round_length _ _ h)

/-- One chunk step preserves the 8-word state length. -/
theorem sha256Chunk_length (st chunk : List Nat) (h : st.length = 8) :
    (sha256Chunk st chunk).length = 8 := by
  unfold sha256Chunk
  rw [List.length_zipWith, sha256Fold_length _ _ h, h]
  decide

/-- The chunk fold preserves the 8-word state length. -/
theorem sha256ChunkFold_length (blocks : List (List Nat)) : ∀ (st : List Nat),
    st.length = 8 → (blocks.foldl sha256Chunk st).length = 8 := by
  induction blocks with
  | nil => intro st h; exact h
  | cons b t ih => intro st h; exact ih _ (sha256Chunk_length _ _ h)

/-- Serializing `n` words yields `4n` bytes. -/
theorem flatMap_wordToBytes_length (l : List Nat) :
    (l.flatMap wordToBytes).length = 4 * l.length := by
  induction l with
  | nil => rfl
  | cons a t ih =>
      simp only [List.flatMap_cons, List.length_append, ih, wordToBytes,
        List.length_cons, List.length_nil]
      omega

/-- SHA-256 digests have 32 bytes. -/
theorem sha256_length (msg : List Nat) : (sha256 msg).length = 32 := by
  unfold sha256
  rw [flatMap_wordToBytes_length, sha256ChunkFold_length _ _ (by rfl)]

/-- SHA-256 digests are byte lists. -/
theorem sha256_listLT (msg : List Nat) : ListLT (sha256 msg) := by
  intro b hb
  unfold sha256 at hb
  simp only [List.mem_flatMap] at hb
  obtain ⟨w, -, hbw⟩ := hb
  simp only [wordToBytes, List.mem_cons] at hbw
  rcases hbw with rfl | rfl | rfl | rfl | hbw
  · omega
  · omega
  · omega
  · omega
  · cases hbw

/-- HMAC-SHA256 tags have 32 bytes. -/
theorem hmacSha256_length (key msg : List Nat) :
    (hmacSha256 key msg).length = 32 := sha256_length _

/-- HMAC-SHA256 tags are byte lists. -/
theorem hmacSha256_listLT (key msg : List Nat) :
    ListLT (hmacSha256 key msg) := sha256_listLT _

/-- The timestamp field has 8 bytes. -/
theorem tsBytes8_length (ts : Nat) : (tsBytes8 ts).length = 8 := rfl

/-- The timestamp field is a byte list. -/
theorem tsBytes8_listLT (ts : Nat) : ListLT (tsBytes8 ts) := by
  intro b hb
  simp only [tsBytes8, List.mem_cons] at hb
  rcases hb with rfl | rfl | rfl | rfl | rfl | rfl | rfl | rfl | hb
  · omega
  · omega
  · omega
  · omega
  · omega
  · omega
  · omega
  · omega
  · cases hb

/-! ### URL-safe base64 -/

/-- Base64 alphabet characters are ASCII. -/
theorem b64Char_lt (x : Nat) : b64Char x < 128 := by
  unfold b64Char
  split
  · omega
  split
  · omega
  split
  · omega
  split
  · omega
  · omega

/-- Base64 alphabet characters are never the padding character. -/
theorem b64Char_ne_61 : ∀ x < 64, b64Char x ≠ 61 := by decide

/-- Decoding a base64 character recovers the sextet. -/
theorem b64Index_b64Char : ∀ x < 64, b64Index (b64Char x) = some x := by decide

/-- Base64 output is ASCII. -/
theorem b64Encode_ascii : ∀ (bs : List Nat), ∀ c ∈ b64Encode bs, c < 128
  | [], _, hc => by cases hc
  | [b1], c, hc => by
      simp only [b64Encode, List.mem_cons] at hc
      rcases hc with rfl | rfl | rfl | rfl | hc
      · exact b64Char_lt _
      · exact b64Char_lt _
      · omega
      · omega
      · cases hc
  | [b1, b2], c, hc => by
      simp only [b64Encode, List.mem_cons] at hc
      rcases hc with rfl | rfl | rfl | rfl | hc
      · exact b64Char_lt _
      · exact b64Char_lt _
      · exact b64Char_lt _
      · omega
      · cases hc
  | b1 :: b2 :: b3 :: rest, c, hc => by
      simp only [b64Encode, List.mem_cons] at hc
      rcases hc with rfl | rfl | rfl | rfl | hc
      · exact b64Char_lt _
      · exact b64Char_lt _
      · exact b64Char_lt _
      · exact b64Char_lt _
      · exact b64Encode_ascii rest c hc

/-- Base64 output length. -/
theorem b64Encode_length : ∀ (bs : List Nat),
    (b64Encode bs).length = 4 * ((bs.length + 2) / 3)
  | [] => rfl
  | [_] => by simp [b64Encode]
  | [_, _] => by simp [b64Encode]
  | _ :: _ :: _ :: rest => by
      simp only [b64Encode, List.length_cons, b64Encode_length rest]
      omega

/-- Base64 decoding inverts encoding on byte lists. -/
theorem b64_roundtrip : ∀ (bs : List Nat), ListLT bs →
    b64Decode (b64Encode bs) = some bs
  | [], _ => rfl
  | [b1], h => by
      have hb1 : b1 < 256 := h b1 (by simp)
      show b64Decode [b64Char (b1 / 4), b64Char (b1 % 4 * 16), 61, 61] = _
      unfold b64Decode
      rw [if_pos (by simp),
        b64Index_b64Char _ (by omega), b64Index_b64Char _ (by omega)]
      simp only [Option.some.injEq, List.cons.injEq, and_true]
      omega
  | [b1, b2], h => by
      have hb1 : b1 < 256 := h b1 (by simp)
      have hb2 : b2 < 256 := h b2 (by simp)
      show b64Decode [b64Char (b1 / 4), b64Char (b1 % 4 * 16 + b2 / 16),
        b64Char (b2 % 16 * 4), 61] = _
      unfold b64Decode
      rw [if_neg (fun hx => b64Char_ne_61 (b2 % 16 * 4) (by omega) hx.1),
        if_pos (by simp),
        b64Index_b64Char _ (by omega), b64Index_b64Char _ (by omega),
        b64Index_b64Char _ (by omega)]
      simp only [Option.some.injEq, List.cons.injEq, and_true]
      omega
  | b1 :: b2 :: b3 :: rest, h => by
      have hb1 : b1 < 256 := h b1 (by simp)
      have hb2 : b2 < 256 := h b2 (by simp)
      have hb3 : b3 < 256 := h b3 (by simp)
      have ih := b64_roundtrip rest (fun b hb => h b (by simp [hb]))
      show b64Decode (b64Char (b1 / 4) :: b64Char (b1 % 4 * 16 + b2 / 16) ::
        b64Char (b2 % 16 * 4 + b3 / 64) :: b64Char (b3 % 64) ::
        b64Encode rest) = _
      unfold b64Decode
      rw [if_neg (fun hx => b64Char_ne_61 (b2 % 16 * 4 + b3 / 64) (by omega) hx.1),
        if_neg (fun hx => b64Char_ne_61 (b3 % 64) (by omega) hx.1),
        b64Index_b64Char _ (by omega), b64Index_b64Char _ (by omega),
        b64Index_b64Char _ (by omega), b64Index_b64Char _ (by omega), ih]
      simp only [Option.some.injEq, List.cons.injEq]
      refine ⟨by omega, by omega, by omega, trivial⟩

/-! ### UTF-8 encoding and decoding -/

/-- Every encoded code point takes at least one byte. -/
theorem utf8EncodeChar_length_pos (c : Nat) : 1 ≤ (utf8EncodeChar c).length := by
  unfold utf8EncodeChar
  split
  · simp
  split
  · simp
  split
  · simp
  · simp

/-- UTF-8 encoding never shrinks a string. -/
theorem utf8Encode_length_ge (s : List Nat) :
    s.length ≤ (utf8Encode s).length := by
  induction s with
  | nil => simp [utf8Encode]
  | cons c rest ih =>
      simp only [utf8Encode, List.flatMap_cons, List.length_append,
        List.length_cons]
      have := utf8EncodeChar_length_pos c
      simp only [utf8Encode] at ih
      omega

/-- UTF-8 encoded bytes of a valid code point are bytes. -/
theorem utf8EncodeChar_listLT {c : Nat} (h : c < 1114112) :
    ListLT (utf8EncodeChar c) := by
  intro b hb
  unfold utf8EncodeChar at hb
  split at hb
  · simp only [List.mem_cons] at hb
    rcases hb with rfl | hb
    · omega
    · cases hb
  split at hb
  · simp only [List.mem_cons] at hb
    rcases hb with rfl | rfl | hb
    · omega
    · omega
    · cases hb
  split at hb
  · simp only [List.mem_cons] at hb
    rcases hb with rfl | rfl | rfl | hb
    · omega
    · omega
    · omega
    · cases hb
  · simp only [List.mem_cons] at hb
    rcases hb with rfl | rfl | rfl | rfl | hb
    · omega
    · omega
    · omega
    · omega
    · cases hb

/-- UTF-8 encoded bytes of a valid string are bytes. -/
theorem utf8Encode_listLT {s : List Nat} (h : ∀ c ∈ s, c < 1114112) :
    ListLT (utf8Encode s) := by
  intro b hb
  simp only [utf8Encode, List.mem_flatMap] at hb
  obtain ⟨c, hc, hbc⟩ := hb
  exact utf8EncodeChar_listLT (h c hc) b hbc

/-- UTF-8 encoding is the identity on ASCII strings. -/
theorem utf8Encode_ascii_id (s : List Nat) (h : ∀ c ∈ s, c < 128) :
    utf8Encode s = s := by
  induction s with
  | nil => rfl
  | cons c rest ih =>
      have hc : c < 128 := h c (by simp)
      simp only [utf8Encode, List.flatMap_cons]
      rw [show utf8EncodeChar c = [c] by unfold utf8EncodeChar; rw [if_pos hc]]
      simp only [List.cons_append, List.nil_append]
      congr 1
      exact ih (fun c' h' => h c' (by simp [h']))

/-- Decoding one encoded code point from the front of a byte stream. -/
theorem utf8DecodeAux_encodeChar (c : Nat) (rest : List Nat) (fuel : Nat)
    (hlt : c < 1114112) (hsur : ¬(55296 ≤ c ∧ c ≤ 57343)) :
    utf8DecodeAux (fuel + 1) (utf8EncodeChar c ++ rest) =
      (utf8DecodeAux fuel rest).map (c :: ·) := by
  by_cases h1 : c < 128
  · rw [show utf8EncodeChar c = [c] by unfold utf8EncodeChar; rw [if_pos h1]]
    show utf8DecodeAux (fuel + 1) (c :: rest) = _
    rw [utf8DecodeAux]
    rw [if_pos h1]
  · by_cases h2 : c < 2048
    · rw [show utf8EncodeChar c = [192 + c / 64, 128 + c % 64] by
        unfold utf8EncodeChar; rw [if_neg h1, if_pos h2]]
      show utf8DecodeAux (fuel + 1)
        ((192 + c / 64) :: (128 + c % 64) :: rest) = _
      rw [utf8DecodeAux]
      simp only [show ((128 + c % 64) :: rest).getD 0 0 = 128 + c % 64 from rfl,
        show ((128 + c % 64) :: rest).length = rest.length + 1 from rfl,
        show ((128 + c % 64) :: rest).drop 1 = rest from rfl]
      rw [if_neg (by omega), if_neg (by omega), if_pos (by omega),
        if_pos (by omega)]
      rw [show (192 + c / 64 - 192) * 64 + (128 + c % 64 - 128) = c by omega]
    · by_cases h3 : c < 65536
      · rw [show utf8EncodeChar c =
            [224 + c / 4096, 128 + c / 64 % 64, 128 + c % 64] by
          unfold utf8EncodeChar; rw [if_neg h1, if_neg h2, if_pos h3]]
        show utf8DecodeAux (fuel + 1) ((224 + c / 4096) ::
          (128 + c / 64 % 64) :: (128 + c % 64) :: rest) = _
        rw [utf8DecodeAux]
        simp only [show ((128 + c / 64 % 64) :: (128 + c % 64) :: rest).getD 0 0
            = 128 + c / 64 % 64 from rfl,
          show ((128 + c / 64 % 64) :: (128 + c % 64) :: rest).getD 1 0
            = 128 + c % 64 from rfl,
          show ((128 + c / 64 % 64) :: (128 + c % 64) :: rest).length
            = rest.length + 2 from rfl,
          show ((128 + c / 64 % 64) :: (128 + c % 64) :: rest).drop 2
            = rest from rfl]
        rw [if_neg (by omega), if_neg (by omega), if_neg (by omega),
          if_pos (by omega), if_pos (by omega)]
        rw [show (224 + c / 4096 - 224) * 4096 + (128 + c / 64 % 64 - 128) * 64 +
          (128 + c % 64 - 128) = c by omega]
      · rw [show utf8EncodeChar c = [240 + c / 262144, 128 + c / 4096 % 64,
            128 + c / 64 % 64, 128 + c % 64] by
          unfold utf8EncodeChar; rw [if_neg h1, if_neg h2, if_neg h3]]
        show utf8DecodeAux (fuel + 1) ((240 + c / 262144) ::
          (128 + c / 4096 % 64) :: (128 + c / 64 % 64) ::
          (128 + c % 64) :: rest) = _
        rw [utf8DecodeAux]
        simp only [show ((128 + c / 4096 % 64) :: (128 + c / 64 % 64) ::
            (128 + c % 64) :: rest).getD 0 0 = 128 + c / 4096 % 64 from rfl,
          show ((128 + c / 4096 % 64) :: (128 + c / 64 % 64) ::
            (128 + c % 64) :: rest).getD 1 0 = 128 + c / 64 % 64 from rfl,
          show ((128 + c / 4096 % 64) :: (128 + c / 64 % 64) ::
            (128 + c % 64) :: rest).getD 2 0 = 128 + c % 64 from rfl,
          show ((128 + c / 4096 % 64) :: (128 + c / 64 % 64) ::
            (128 + c % 64) :: rest).length = rest.length + 3 from rfl,
          show ((128 + c / 4096 % 64) :: (128 + c / 64 % 64) ::
            (128 + c % 64) :: rest).drop 3 = rest from rfl]
        rw [if_neg (by omega), if_neg (by omega), if_neg (by omega),
          if_neg (by omega), if_pos (by omega), if_pos (by omega)]
        rw [show (240 + c / 262144 - 240) * 262144 +
          (128 + c / 4096 % 64 - 128) * 4096 + (128 + c / 64 % 64 - 128) * 64 +
          (128 + c % 64 - 128) = c by omega]

/-- With enough fuel, decoding inverts encoding on valid strings. -/
theorem utf8DecodeAux_encode (s : List Nat) (fuel : Nat)
    (hfuel : s.length < fuel)
    (h : ∀ c ∈ s, c < 1114112 ∧ ¬(55296 ≤ c ∧ c ≤ 57343)) :
    utf8DecodeAux fuel (utf8Encode s) = some s := by
  induction s generalizing fuel with
  | nil =>
      cases fuel with
      | zero => omega
      | succ f => rfl
  | cons c rest ih =>
      cases fuel with
      | zero => omega
      | succ f =>
          obtain ⟨hlt, hsur⟩ := h c (by simp)
          simp only [utf8Encode, List.flatMap_cons]
          rw [utf8DecodeAux_encodeChar c _ f hlt hsur]
          rw [show (rest.flatMap utf8EncodeChar) = utf8Encode rest from rfl,
            ih f (by simp at hfuel; omega)
              (fun c' h' => h c' (by simp [h']))]
          rfl

/-- UTF-8 decoding inverts encoding on valid strings. -/
theorem utf8_roundtrip (s : List Nat)
    (h : ∀ c ∈ s, c < 1114112 ∧ ¬(55296 ≤ c ∧ c ≤ 57343)) :
    utf8Decode (utf8Encode s) = some s := by
  have hge := utf8Encode_length_ge s
  exact utf8DecodeAux_encode s ((utf8Encode s).length + 1) (by omega) h

/-! ### The Fernet token layer -/

/-- CBC encryption preserves the number of blocks. -/
theorem cbcEncryptStates_length (key : List Nat) :
    ∀ (ps : List AESState) (prev : AESState),
      (cbcEncryptStates key prev ps).length = ps.length
  | [], _ => rfl
  | p :: rest, prev => by
      rw [cbcEncryptStates]
      simp only [List.length_cons, cbcEncryptStates_length key rest]

/-- Structure of Fernet decryption on a well-formed token: with the right
header byte, an authentic HMAC and a block-aligned ciphertext, decryption
reduces to CBC decryption plus unpadding. -/
theorem fernetDecryptToken_structure (key32 : List Nat) (ts : Nat)
    (iv ct tag m : List Nat) (hivlen : iv.length = 16)
    (hct : ListLT ct) (hiv : ListLT iv)
    (hmod : ct.length % 16 = 0)
    (htag : tag = hmacSha256 (key32.take 16) (128 :: (tsBytes8 ts ++ iv ++ ct)))
    (hun : pkcs7Unpad (statesToBytes (cbcDecryptStates (key32.drop 16)
      (listToState iv) (bytesToStates ct))) = some m) :
    fernetDecryptToken key32
      (b64Encode ((128 :: (tsBytes8 ts ++ iv ++ ct)) ++ tag)) = .ok m := by
  have htagLT : ListLT tag := by
    rw [htag]; exact hmacSha256_listLT _ _
  have htaglen : tag.length = 32 := by
    rw [htag]; exact hmacSha256_length _ _
  have hbodyLT : ListLT (128 :: (tsBytes8 ts ++ iv ++ ct)) := by
    intro b hb
    simp only [List.mem_cons, List.mem_append] at hb
    rcases hb with rfl | (hb | hb) | hb
    · omega
    · exact tsBytes8_listLT ts b hb
    · exact hiv b hb
    · exact hct b hb
  have htokLT : ListLT ((128 :: (tsBytes8 ts ++ iv ++ ct)) ++ tag) := by
    intro b hb
    rcases List.mem_append.mp hb with hb | hb
    · exact hbodyLT b hb
    · exact htagLT b hb
  have h1 : b64Decode (utf8Encode
      (b64Encode ((128 :: (tsBytes8 ts ++ iv ++ ct)) ++ tag))) =
      some ((128 :: (tsBytes8 ts ++ iv ++ ct)) ++ tag) := by
    rw [utf8Encode_ascii_id _ (b64Encode_ascii _), b64_roundtrip _ htokLT]
  have hDlen : (((128 :: (tsBytes8 ts ++ iv ++ ct)) ++ tag : List Nat)).length
      = 57 + ct.length := by
    simp only [List.length_append, List.length_cons, tsBytes8_length,
      hivlen, htaglen]
    omega
  have hhead : (((128 :: (tsBytes8 ts ++ iv ++ ct)) ++ tag : List Nat)).getD 0 0
      = 128 := rfl
  have htake : (((128 :: (tsBytes8 ts ++ iv ++ ct)) ++ tag : List Nat)).take
      (25 + ct.length) = 128 :: (tsBytes8 ts ++ iv ++ ct) := by
    rw [show 25 + ct.length =
        ((128 :: (tsBytes8 ts ++ iv ++ ct) : List Nat)).length from by
      simp only [List.length_cons, List.length_append, tsBytes8_length, hivlen]
      omega]
    exact take_len_append _ _
  have hdrop : (((128 :: (tsBytes8 ts ++ iv ++ ct)) ++ tag : List Nat)).drop
      (25 + ct.length) = tag := by
    rw [show 25 + ct.length =
        ((128 :: (tsBytes8 ts ++ iv ++ ct) : List Nat)).length from by
      simp only [List.length_cons, List.length_append, tsBytes8_length, hivlen]
      omega]
    exact drop_len_append _ _
  have hivrec : ((((128 :: (tsBytes8 ts ++ iv ++ ct)) ++ tag : List Nat)).drop
      9).take 16 = iv := by
    have e : ((128 :: (tsBytes8 ts ++ iv ++ ct)) ++ tag : List Nat) =
        (128 :: tsBytes8 ts) ++ (iv ++ (ct ++ tag)) := by
      simp [List.append_assoc]
    rw [e, show (9 : Nat) = ((128 :: tsBytes8 ts : List Nat)).length from rfl,
      drop_len_append, ← hivlen, take_len_append]
  have hctrec : ((((128 :: (tsBytes8 ts ++ iv ++ ct)) ++ tag : List Nat)).drop
      25).take ct.length = ct := by
    have e : ((128 :: (tsBytes8 ts ++ iv ++ ct)) ++ tag : List Nat) =
        (128 :: (tsBytes8 ts ++ iv)) ++ (ct ++ tag) := by
      simp [List.append_assoc]
    have h25 : ((128 :: (tsBytes8 ts ++ iv) : List Nat)).length = 25 := by
      simp only [List.length_cons, List.length_append, tsBytes8_length, hivlen]
    rw [e, show (25 : Nat) =
        ((128 :: (tsBytes8 ts ++ iv) : List Nat)).length from h25.symm,
      drop_len_append, take_len_append]
  unfold fernetDecryptToken
  rw [h1]
  simp only []
  rw [hDlen, if_pos (by exact ⟨hhead, by omega⟩)]
  rw [show 57 + ct.length - 32 = 25 + ct.length from by omega]
  simp only [htake, hdrop]
  rw [if_pos htag.symm]
  rw [show 57 + ct.length - 25 - 32 = ct.length from by omega]
  simp only [hivrec, hctrec]
  rw [if_pos hmod]
  simp only [hun]

/-- Fernet decryption inverts Fernet encryption for byte-valued keys,
a 16-byte IV and byte-valued message bytes. -/
theorem fernet_roundtrip (key32 : List Nat) (ts : Nat) (iv msg : List Nat)
    (hk : ListLT key32) (hivlen : iv.length = 16) (hiv : ListLT iv)
    (hmsg : ListLT msg) :
    fernetDecryptToken key32 (fernetEncryptToken key32 ts iv msg) =
      .ok msg := by
  have hk16 : ListLT (key32.drop 16) := fun b hb =>
    hk b (List.mem_of_mem_drop hb)
  have hprev : StateLT (listToState iv) := listToState_stateLT iv hiv
  have hps : ∀ p ∈ bytesToStates (pkcs7Pad msg), StateLT p :=
    bytesToStates_stateLT _ (pkcs7Pad_listLT hmsg)
  have hctLT : ListLT (statesToBytes (cbcEncryptStates (key32.drop 16)
      (listToState iv) (bytesToStates (pkcs7Pad msg)))) :=
    statesToBytes_listLT _ (cbcEncryptStates_stateLT hk16 _ _ hprev hps)
  have hpadlen : 16 * (bytesToStates (pkcs7Pad msg)).length
      = (pkcs7Pad msg).length := by
    have h := congrArg List.length
      (statesToBytes_bytesToStates (pkcs7Pad msg) (pkcs7Pad_mod msg))
    rw [statesToBytes_length] at h
    exact h
  have hctlen : (statesToBytes (cbcEncryptStates (key32.drop 16)
      (listToState iv) (bytesToStates (pkcs7Pad msg)))).length
      = (pkcs7Pad msg).length := by
    rw [statesToBytes_length, cbcEncryptStates_length]
    exact hpadlen
  have hun : pkcs7Unpad (statesToBytes (cbcDecryptStates (key32.drop 16)
      (listToState iv) (bytesToStates (statesToBytes (cbcEncryptStates
        (key32.drop 16) (listToState iv)
        (bytesToStates (pkcs7Pad msg))))))) = some msg := by
    rw [bytesToStates_statesToBytes,
      cbcDecrypt_cbcEncrypt hk16 _ _ hprev hps,
      statesToBytes_bytesToStates _ (pkcs7Pad_mod msg), pkcs7Unpad_pad]
  exact fernetDecryptToken_structure key32 ts iv _ _ msg hivlen hctLT hiv
    (by rw [hctlen]; exact pkcs7Pad_mod msg) rfl hun

/-- Length of the raw token bytes. -/
theorem fernetTokenBytes_length (key32 : List Nat) (ts : Nat)
    (iv msg : List Nat) (hivlen : iv.length = 16) :
    (fernetTokenBytes key32 ts iv msg).length = 57 + (pkcs7Pad msg).length := by
  have hpadlen : 16 * (bytesToStates (pkcs7Pad msg)).length
      = (pkcs7Pad msg).length := by
    have h := congrArg List.length
      (statesToBytes_bytesToStates (pkcs7Pad msg) (pkcs7Pad_mod msg))
    rw [statesToBytes_length] at h
    exact h
  unfold fernetTokenBytes
  simp only [List.length_append, List.length_cons, tsBytes8_length, hivlen,
    hmacSha256_length, statesToBytes_length, cbcEncryptStates_length]
  omega

/-- A Fernet token string is strictly longer than the encoded plaintext. -/
theorem fernetEncryptToken_length_gt (key32 : List Nat) (ts : Nat)
    (iv msg : List Nat) (hivlen : iv.length = 16) :
    msg.length < (fernetEncryptToken key32 ts iv msg).length := by
  have h1 : (fernetEncryptToken key32 ts iv msg).length =
      4 * (((fernetTokenBytes key32 ts iv msg).length + 2) / 3) :=
    b64Encode_length _
  rw [h1, fernetTokenBytes_length key32 ts iv msg hivlen, pkcs7Pad_length]
  omega

/-! ### Claim theorems -/

/-- **C3.** A webhook request whose (parsed) timestamp differs from the
current time by more than the configured tolerance is rejected by
`verify_frameio_signature`, whatever the signature header says. -/
theorem stale_timestamp_rejected (now : Int) (tol : Nat)
    (timestamp signature body secret : List Nat) (request_time : Int)
    (hparse : pyIntParse timestamp = some request_time)
    (hstale : tol < (now - request_time).natAbs) :
    verifyFrameioSignature now tol timestamp signature body secret = false := by
  unfold verifyFrameioSignature
  rw [hparse]
  simp [hstale]

/-- Witness for C3, realizing the spec's example: a request timestamped 301
seconds before the current time (tolerance 300) carries the signature that
is correct for its body — it verifies at its own send time, yet is
rejected at the current time. -/
theorem stale_timestamp_rejected_witness :
    verifyFrameioSignature 1699999699 300 (pystr "1699999699")
      (pystr "v0=61d9604790b8e60a8089b7f7f5d4467c97b5a7af02e9864b6ba36294bb6ba53e")
      (pystr "\x7b\"a\":1\x7d") (pystr "s3cr3t") = true ∧
    verifyFrameioSignature 1700000000 300 (pystr "1699999699")
      (pystr "v0=61d9604790b8e60a8089b7f7f5d4467c97b5a7af02e9864b6ba36294bb6ba53e")
      (pystr "\x7b\"a\":1\x7d") (pystr "s3cr3t") = false := by
  constructor
  · decide
  · exact stale_timestamp_rejected 1700000000 300 _ _ _ _ 1699999699
      (by decide) (by decide)

/-- **C4.** `verify_frameio_signature` accepts exactly when the received
signature header equals `"v0="` plus the hex HMAC-SHA256, under the shared
secret, of the string `"v0:" + timestamp + ":" + body` (with a fresh
timestamp); consequently any change to the body that changes the recomputed
HMAC, with the signature kept fixed, causes rejection. -/
theorem signature_scheme_and_body_tamper_rejection (now : Int) (tol : Nat)
    (timestamp signature body secret : List Nat) :
    (verifyFrameioSignature now tol timestamp signature body secret = true ↔
      ∃ request_time bodyStr, pyIntParse timestamp = some request_time ∧
        (now - request_time).natAbs ≤ tol ∧
        utf8Decode body = some bodyStr ∧
        expectedSignature timestamp bodyStr secret = some signature) ∧
    (∀ body₂ bodyStr₂,
      verifyFrameioSignature now tol timestamp signature body secret = true →
      utf8Decode body₂ = some bodyStr₂ →
      expectedSignature timestamp bodyStr₂ secret ≠ some signature →
      verifyFrameioSignature now tol timestamp signature body₂ secret = false) := by
  have hmain : ∀ b : List Nat,
      verifyFrameioSignature now tol timestamp signature b secret = true ↔
        ∃ request_time bodyStr, pyIntParse timestamp = some request_time ∧
          (now - request_time).natAbs ≤ tol ∧
          utf8Decode b = some bodyStr ∧
          expectedSignature timestamp bodyStr secret = some signature := by
    intro b
    constructor
    · intro h
      unfold verifyFrameioSignature at h
      cases hp : pyIntParse timestamp with
      | none => simp [hp] at h
      | some rt =>
        simp only [hp] at h
        by_cases htol : tol < (now - rt).natAbs
        · simp [if_pos htol] at h
        · simp only [if_neg htol] at h
          cases hd : utf8Decode b with
          | none => simp [hd] at h
          | some bodyStr =>
            simp only [hd] at h
            cases hs : expectedSignature timestamp bodyStr secret with
            | none => simp [hs] at h
            | some calculated =>
              simp only [hs, decide_eq_true_eq] at h
              exact ⟨rt, bodyStr, rfl, by omega, rfl, by rw [hs, h]⟩
    · rintro ⟨rt, bodyStr, hp, hle, hd, hs⟩
      unfold verifyFrameioSignature
      simp only [hp, if_neg (show ¬ tol < (now - rt).natAbs by omega), hd, hs,
        decide_eq_true_eq]
  refine ⟨hmain body, ?_⟩
  intro body₂ bodyStr₂ hver hdec hne
  rcases (hmain body).mp hver with ⟨rt, bodyStr, hp, hle, -, -⟩
  cases hv2 : verifyFrameioSignature now tol timestamp signature body₂ secret with
  | false => rfl
  | true =>
      rcases (hmain body₂).mp hv2 with ⟨rt', bodyStr₂', -, -, hd2, hs2⟩
      rw [hdec] at hd2
      injection hd2 with h''
      subst h''
      exact absurd hs2 hne

/-- Witness for C4, the spec's fixed example: secret `"s3cr3t"`, timestamp
`1700000000`, body `{"a":1}` with its correct signature is accepted, and
flipping one byte of the body (`1` → `2`) while keeping the signature fixed
is rejected. -/
theorem signature_scheme_and_body_tamper_rejection_witness :
    verifyFrameioSignature 1700000000 300 (pystr "1700000000")
      (pystr "v0=e9059c43cd474a569209c909bf322c65b8cb12b70b2ffea21dad45a992d0bb04")
      (pystr "\x7b\"a\":1\x7d") (pystr "s3cr3t") = true ∧
    verifyFrameioSignature 1700000000 300 (pystr "1700000000")
      (pystr "v0=e9059c43cd474a569209c909bf322c65b8cb12b70b2ffea21dad45a992d0bb04")
      (pystr "\x7b\"a\":2\x7d") (pystr "s3cr3t") = false := by
  have hacc : verifyFrameioSignature 1700000000 300 (pystr "1700000000")
      (pystr "v0=e9059c43cd474a569209c909bf322c65b8cb12b70b2ffea21dad45a992d0bb04")
      (pystr "\x7b\"a\":1\x7d") (pystr "s3cr3t") = true := by
    exact (signature_scheme_and_body_tamper_rejection 1700000000 300
      (pystr "1700000000") _ (pystr "\x7b\"a\":1\x7d") (pystr "s3cr3t")).1.mpr
      ⟨1700000000, pystr "\x7b\"a\":1\x7d", by decide, by decide, by decide,
        by decide⟩
  refine ⟨hacc, ?_⟩
  exact (signature_scheme_and_body_tamper_rejection 1700000000 300
      (pystr "1700000000") _ (pystr "\x7b\"a\":1\x7d") (pystr "s3cr3t")).2
      (pystr "\x7b\"a\":2\x7d") (pystr "\x7b\"a\":2\x7d") hacc
      (by decide) (by decide)

/-- **C10.** `verify_frameioSignature` is a total Boolean function, and a
timestamp header that is not a well-formed integer, or a body that is not
decodable as UTF-8, makes it return `False` (the request is rejected), not
raise. -/
theorem verify_total_and_rejects_malformed_inputs (now : Int) (tol : Nat)
    (timestamp signature body secret : List Nat) :
    (pyIntParse timestamp = none →
      verifyFrameioSignature now tol timestamp signature body secret = false) ∧
    (utf8Decode body = none →
      verifyFrameioSignature now tol timestamp signature body secret = false) ∧
    (verifyFrameioSignature now tol timestamp signature body secret = true ∨
      verifyFrameioSignature now tol timestamp signature body secret = false) := by
  refine ⟨?_, ?_, ?_⟩
  · intro h; unfold verifyFrameioSignature; rw [h]
  · intro h
    unfold verifyFrameioSignature
    cases hp : pyIntParse timestamp with
    | none => rfl
    | some rt =>
        by_cases htol : tol < (now - rt).natAbs
        · simp [htol]
        · simp only [if_neg htol]; rw [h]
  · cases verifyFrameioSignature now tol timestamp signature body secret
    · right; rfl
    · left; rfl

/-- Witness for C10: a non-integer timestamp header and a non-UTF-8 body
each yield `False` at concrete inputs. -/
theorem verify_total_and_rejects_malformed_inputs_witness :
    verifyFrameioSignature 1700000000 300 (pystr "not-a-number")
      (pystr "v0=00") (pystr "x") (pystr "s3cr3t") = false ∧
    verifyFrameioSignature 1700000000 300 (pystr "1700000000")
      (pystr "v0=00") [0xff, 0xfe] (pystr "s3cr3t") = false := by
  constructor
  · exact (verify_total_and_rejects_malformed_inputs 1700000000 300
      (pystr "not-a-number") (pystr "v0=00") (pystr "x") (pystr "s3cr3t")).1
      (by decide)
  · exact (verify_total_and_rejects_malformed_inputs 1700000000 300
      (pystr "1700000000") (pystr "v0=00") [0xff, 0xfe] (pystr "s3cr3t")).2.1
      (by decide)

/-- **C5, counterexample.** At the concrete unparseable body
`b"invalid json{{{"`, neither gateway produces 422 (nor any
`MalformedPayloadError`, which does not exist in the source): the service
app returns 500 (the swallowed parse error leaves a `raw_body` payload that
fails `FrameIOEvent` validation) and the standalone receiver returns 200. -/
theorem malformed_payload_422_counterexample :
    appFrameioWebhook (pystr "invalid json\x7b\x7b\x7b")
      (.returns (some (pystr "m1"))) = 500 ∧
    receiverWebhook
      { session_secret_key := some (pystr "k"),
        token_encryption_key := none,
        frameio_webhook_secret := some (pystr "s3cr3t"),
        verify_signatures := false,
        signature_time_tolerance := 300,
        gcp_project_id := none }
      1700000000 none none (pystr "invalid json\x7b\x7b\x7b") = 200 ∧
    (500 ≠ 422 ∧ 200 ≠ 422) := by
  refine ⟨rfl, rfl, by decide, by decide⟩

/-- **C5 (amended).** A webhook body that decodes as UTF-8 but is not
parseable JSON is swallowed, not rejected with 422: the parse error is
replaced by a `{"raw_body": ...}` payload, after which the service app
fails `FrameIOEvent` validation and returns 500, while the standalone
receiver logs the fallback payload and returns 200. -/
theorem malformed_payload_swallowed (body bodyStr : List Nat)
    (publish : PublishOutcome)
    (hdec : utf8Decode body = some bodyStr)
    (hbad : jsonLoads bodyStr = none) :
    appFrameioWebhook body publish = 500 ∧ receiverProcess body = 200 := by
  have hp : parsedPayload body = some (.obj [(pystr "raw_body",
      if body.isEmpty then Json.null else Json.str bodyStr)]) := by
    unfold parsedPayload
    simp only [hdec, hbad]
  constructor
  · unfold appFrameioWebhook
    rw [hp]
    rfl
  · unfold receiverProcess
    rw [hp]
    rfl

/-- Witness for the amended C5 at the concrete body `b"invalid json{{{"`. -/
theorem malformed_payload_swallowed_witness :
    appFrameioWebhook (pystr "invalid json\x7b\x7b\x7b") (.raises (pystr "boom")) = 500 ∧
    receiverProcess (pystr "invalid json\x7b\x7b\x7b") = 200 :=
  malformed_payload_swallowed (pystr "invalid json\x7b\x7b\x7b")
    (pystr "invalid json\x7b\x7b\x7b") (.raises (pystr "boom")) rfl rfl

/-- **C9, counterexample.** A configuration with `SESSION_SECRET_KEY` set
but no encryption key and no webhook secret starts both processes
successfully: absence of those two secrets does not prevent startup. -/
theorem fail_fast_startup_counterexample :
    appStartup
      { session_secret_key := some (pystr "sess-key"),
        token_encryption_key := none,
        frameio_webhook_secret := none,
        verify_signatures := true,
        signature_time_tolerance := 300,
        gcp_project_id := none } = .ok () ∧
    receiverStartup
      { session_secret_key := some (pystr "sess-key"),
        token_encryption_key := none,
        frameio_webhook_secret := none,
        verify_signatures := true,
        signature_time_tolerance := 300,
        gcp_project_id := none } = .ok () := ⟨rfl, rfl⟩

/-- **C9 (amended).** Missing encryption key or webhook secret does not
fail fast: startup only validates `SESSION_SECRET_KEY`; a missing
`TOKEN_ENCRYPTION_KEY` surfaces as a `ValueError` at the first
encryption/decryption call and makes the repository silently fall back to
in-memory storage, and a missing webhook secret (with verification
enabled) makes every webhook request fail with 500 at request time. -/
theorem missing_secrets_fail_lazily (cfg : ProcessConfig) (now : Int)
    (tsHeader sigHeader : Option (List Nat)) (body : List Nat) :
    receiverStartup cfg = .ok () ∧
    (cfg.session_secret_key ≠ none → cfg.session_secret_key ≠ some [] →
      appStartup cfg = .ok ()) ∧
    (cfg.token_encryption_key = none →
      getFernet cfg = .error
        (pystr "TOKEN_ENCRYPTION_KEY environment variable must be set for token encryption") ∧
      getUserRepositoryKind cfg = .inMemory) ∧
    (cfg.verify_signatures = true → cfg.frameio_webhook_secret = none →
      receiverWebhook cfg now tsHeader sigHeader body = 500) := by
  refine ⟨rfl, ?_, ?_, ?_⟩
  · intro h1 h2
    simp [appStartup, h1, h2]
  · intro h
    constructor
    · simp [getFernet, h]
    · simp [getUserRepositoryKind, isFirestoreConfigured, h]
  · intro hv hs
    simp [receiverWebhook, hv, hs]

/-- Witness for the amended C9 at the counterexample's configuration. -/
theorem missing_secrets_fail_lazily_witness :
    appStartup
      { session_secret_key := some (pystr "sess-key"),
        token_encryption_key := none,
        frameio_webhook_secret := none,
        verify_signatures := true,
        signature_time_tolerance := 300,
        gcp_project_id := none } = .ok () ∧
    getFernet
      { session_secret_key := some (pystr "sess-key"),
        token_encryption_key := none,
        frameio_webhook_secret := none,
        verify_signatures := true,
        signature_time_tolerance := 300,
        gcp_project_id := none } = .error
        (pystr "TOKEN_ENCRYPTION_KEY environment variable must be set for token encryption") ∧
    receiverWebhook
      { session_secret_key := some (pystr "sess-key"),
        token_encryption_key := none,
        frameio_webhook_secret := none,
        verify_signatures := true,
        signature_time_tolerance := 300,
        gcp_project_id := none }
      1700000000 (some (pystr "1700000000")) (some (pystr "v0=00"))
      (pystr "\x7b\x7d") = 500 := by
  refine ⟨?_, ?_, ?_⟩
  · exact (missing_secrets_fail_lazily _ 1700000000 none none []).2.1
      (by decide) (by decide)
  · exact ((missing_secrets_fail_lazily _ 1700000000 none none []).2.2.1 rfl).1
  · exact (missing_secrets_fail_lazily _ 1700000000
      (some (pystr "1700000000")) (some (pystr "v0=00")) (pystr "\x7b\x7d")).2.2.2
      rfl rfl

/-- **C6.** A stored token whose `expires_at` is in the past and whose
`refresh_token` is absent makes `_refresh_token_if_needed` fail with
`TokenExpiredError` while making zero calls to the provider's refresh
endpoint, whatever the refresh endpoint would have answered. -/
theorem expired_token_without_refresh_fails_with_zero_calls
    (tok : OAuthToken) (now e : Int) (can_refresh : Bool)
    (http : RefreshHttpOutcome)
    (hexp : tok.expires_at = some e) (hpast : e < now)
    (hnorefresh : tok.refresh_token = none) :
    refreshTokenIfNeeded tok now can_refresh http =
      (.error ⟨pystr "Token expired and no refresh token available"⟩, 0) := by
  have hexpired : tok.is_expired now = true := by
    simp [OAuthToken.is_expired, hexp]; omega
  simp [refreshTokenIfNeeded, hexpired, hnorefresh]

/-- Witness for C6: a concretely expired token with no refresh token is
rejected with zero refresh calls. -/
theorem expired_token_without_refresh_fails_with_zero_calls_witness :
    refreshTokenIfNeeded
      { provider := pystr "adobe", access_token := pystr "A",
        refresh_token := none, expires_at := some 1000, connected_at := 0 }
      2000 true ⟨200, { access_token := pystr "B" }⟩ =
      (.error ⟨pystr "Token expired and no refresh token available"⟩, 0) :=
  expired_token_without_refresh_fails_with_zero_calls _ _ 1000 _ _
    rfl (by decide) rfl

/-- **C7.** A stored token whose `expires_at` is absent or in the future is
returned unchanged (in particular with the same `access_token`) with zero
refresh calls, and a refresh HTTP call is made only when `expires_at` is
present and not in the future. -/
theorem valid_token_returned_without_refresh
    (tok : OAuthToken) (now : Int) (can_refresh : Bool)
    (http : RefreshHttpOutcome) :
    (tok.expires_at = none ∨ (∃ e, tok.expires_at = some e ∧ now < e) →
      refreshTokenIfNeeded tok now can_refresh http = (.ok tok, 0)) ∧
    (1 ≤ (refreshTokenIfNeeded tok now can_refresh http).2 →
      ∃ e, tok.expires_at = some e ∧ e ≤ now) := by
  constructor
  · intro h
    have hnotexp : tok.is_expired now = false := by
      rcases h with h | ⟨e, he, hlt⟩
      · simp [OAuthToken.is_expired, h]
      · simp [OAuthToken.is_expired, he]; omega
    simp [refreshTokenIfNeeded, hnotexp]
  · intro hcalls
    by_cases hexp : tok.is_expired now = true
    · match he : tok.expires_at with
      | none => rw [OAuthToken.is_expired, he] at hexp; cases hexp
      | some e =>
          refine ⟨e, rfl, ?_⟩
          rw [OAuthToken.is_expired, he] at hexp
          simpa using hexp
    · rw [Bool.not_eq_true] at hexp
      simp [refreshTokenIfNeeded, hexp] at hcalls

/-- Witness for C7 at a concrete future-dated token: it is returned
unchanged with zero refresh calls. -/
theorem valid_token_returned_without_refresh_witness :
    refreshTokenIfNeeded
      { provider := pystr "google", access_token := pystr "T",
        refresh_token := some (pystr "R"), expires_at := some 9999,
        connected_at := 0 }
      1000 true ⟨200, { access_token := pystr "B" }⟩ =
      (.ok { provider := pystr "google", access_token := pystr "T",
             refresh_token := some (pystr "R"), expires_at := some 9999,
             connected_at := 0 }, 0) :=
  (valid_token_returned_without_refresh _ _ _ _).1
    (Or.inr ⟨9999, rfl, by decide⟩)

/-- **C8.** Saving a token for a `uid` with no existing user record fails
with the user-not-found error and leaves the store untouched (no user
created, no token persisted), in both the in-memory and the Firestore
repository. -/
theorem save_token_requires_existing_user
    (st : InMemoryState) (db : FirestoreDB) (uid provider : List Nat)
    (token_data : RawTokenResponse) (now : Int) (enc : List Nat → List Nat)
    (hmem : alistGet uid st = none) (hfs : alistGet uid db.users = none) :
    inMemorySaveToken st uid provider token_data now =
      (st, .error (pystr "User not found - cannot save token")) ∧
    firestoreSaveToken db uid provider token_data now enc =
      (db, .error (pystr "User not found - cannot save token")) := by
  constructor
  · simp [inMemorySaveToken, hmem]
  · simp [firestoreSaveToken, hfs]

/-- Witness for C8 at a concrete empty store. -/
theorem save_token_requires_existing_user_witness :
    inMemorySaveToken [] (pystr "u1") (pystr "google")
        { access_token := pystr "T" } 5 =
      ([], .error (pystr "User not found - cannot save token")) ∧
    firestoreSaveToken ⟨[], []⟩ (pystr "u1") (pystr "google")
        { access_token := pystr "T" } 5 id =
      (⟨[], []⟩, .error (pystr "User not found - cannot save token")) :=
  save_token_requires_existing_user [] ⟨[], []⟩ _ _ _ _ id rfl rfl

/-- C2: For every encodable string `s` (valid non-surrogate code points),
with the 32-byte process key, any timestamp and any 16-byte random IV,
`decrypt_token` returns exactly `s` on the token produced by
`encrypt_token`, and that token is never equal to the plaintext itself. -/
theorem encryption_roundtrip_and_ciphertext_differs (key32 : List Nat)
    (ts : Nat) (iv s : List Nat) (_hklen : key32.length = 32)
    (hk : ListLT key32) (hivlen : iv.length = 16) (hiv : ListLT iv)
    (hs : ∀ c ∈ s, c < 1114112 ∧ ¬(55296 ≤ c ∧ c ≤ 57343)) :
    decrypt_token key32 (encrypt_token key32 ts iv s) = .ok s ∧
    encrypt_token key32 ts iv s ≠ s := by
  constructor
  · have hmsg : ListLT (utf8Encode s) :=
      utf8Encode_listLT (fun c hc => (hs c hc).1)
    have hF : fernetDecryptToken key32
        (fernetEncryptToken key32 ts iv (utf8Encode s)) =
        .ok (utf8Encode s) :=
      fernet_roundtrip key32 ts iv (utf8Encode s) hk hivlen hiv hmsg
    unfold decrypt_token encrypt_token
    simp only [hF]
    simp only [utf8_roundtrip s hs]
  · intro heq
    have hl := congrArg List.length heq
    rw [show encrypt_token key32 ts iv s =
        fernetEncryptToken key32 ts iv (utf8Encode s) from rfl] at hl
    have hgt := fernetEncryptToken_length_gt key32 ts iv (utf8Encode s) hivlen
    have hge := utf8Encode_length_ge s
    omega

/-- Witness for C2 at a concrete key, timestamp, IV and one-character
plaintext. -/
theorem encryption_roundtrip_and_ciphertext_differs_witness :
    decrypt_token (List.range 32)
        (encrypt_token (List.range 32) 1700000000
          ((List.range 16).map (fun x => x + 100)) [84]) = .ok [84] ∧
    encrypt_token (List.range 32) 1700000000
        ((List.range 16).map (fun x => x + 100)) [84] ≠ [84] :=
  encryption_roundtrip_and_ciphertext_differs (List.range 32) 1700000000
    ((List.range 16).map (fun x => x + 100)) [84] (by decide)
    (by unfold ListLT; decide) (by decide) (by unfold ListLT; decide)
    (by decide)

end Cambridge
